import Mathlib

/-!
# Snapshot info codec and registry (`pkg/model/tangle/snapshot.go`)

A shallow embedding of the Go file `snapshot.go` of package `tangle`.

* Bytes are natural numbers below `256`; a `[]byte` is a `List Nat`.
* `milestone.Index` is `uint32`, `bitmask.BitMask` is `byte`, `trinary.Hash` is a Go string.
* A call either returns or panics (`Go`); a registry operation also carries the package
  level variables it leaves behind (`Run`).
* The tryte transform of `iota.go/trinary` and the two database helpers live outside this
  file and are parameters (`Trinary`, `Storage`).
* The reader/writer mutex and the console output of `println` are not part of the state.
-/

namespace Hornet

/-! ## Go values -/

/-- Go `error` values: the package sentinel, `errors.Wrapf` around a cause, a runtime
error raised by the language itself, and errors made by collaborators. -/
inductive GoError where
  | ErrParseSnapshotInfoFailed : GoError
  | Wrapf (cause : GoError) (format : String) (args : List Nat) : GoError
  | runtime (msg : String) : GoError
  | external (code : Nat) : GoError
deriving DecidableEq, Repr

/-- `errors.Cause`: strips every `Wrapf` layer. -/
def GoError.Cause : GoError → GoError
  | .Wrapf c _ _ => c.Cause
  | e => e

/-- Outcome of a Go call that touches no package variable: it returns or it panics. -/
inductive Go (α : Type) where
  | ret (a : α) : Go α
  | panic (e : GoError) : Go α
deriving DecidableEq, Repr

/-- Sequencing of Go statements: a panic skips the rest of the body. -/
def Go.bind {α β : Type} (m : Go α) (f : α → Go β) : Go β :=
  match m with
  | .ret a => f a
  | .panic e => .panic e

instance : Monad Go where
  pure := Go.ret
  bind := Go.bind

/-- Outcome of a Go call that runs on the package variables `σ`: the variables it leaves
behind, with the returned value or the panic value. -/
inductive Run (σ α : Type) where
  | returned (s : σ) (a : α) : Run σ α
  | panicked (s : σ) (e : GoError) : Run σ α

deriving instance DecidableEq for Except

/-- A Go string of trytes (`trinary.Trytes`, `trinary.Hash`). -/
abbrev Trytes := String

/-- The tryte transform of `iota.go/trinary`, a collaborator outside this repository:
`BytesToTrytes(bytes, numTrytes)` and `TrytesToBytes(trytes)`, each with its error result. -/
structure Trinary where
  BytesToTrytes : List Nat → Nat → Except GoError Trytes
  TrytesToBytes : Trytes → Except GoError (List Nat)

/-- `trinary.MustBytesToTrytes`: panics with the error of `BytesToTrytes`. -/
def MustBytesToTrytes (T : Trinary) (bytes : List Nat) (numTrytes : Nat) : Go Trytes :=
  match T.BytesToTrytes bytes numTrytes with
  | .ok t => .ret t
  | .error e => .panic e

/-- `trinary.MustTrytesToBytes`: panics with the error of `TrytesToBytes`. -/
def MustTrytesToBytes (T : Trinary) (trytes : Trytes) : Go (List Nat) :=
  match T.TrytesToBytes trytes with
  | .ok b => .ret b
  | .error e => .panic e

/-- The slice expression `b[lo:hi]` on a slice long enough for it. -/
def slice (b : List Nat) (lo hi : Nat) : List Nat :=
  (b.drop lo).take (hi - lo)

/-- The slice expression `b[:hi]` on a freshly made slice (capacity equal to length):
a runtime panic when `hi` is out of range. -/
def sliceTo (b : List Nat) (hi : Nat) : Go (List Nat) :=
  if hi ≤ b.length then .ret (b.take hi)
  else .panic (.runtime "slice bounds out of range")

/-- Conversion `uint32(x)`. -/
def uint32 (x : Nat) : Nat := x % 2 ^ 32

/-- Conversion `byte(x)`. -/
def byte (x : Nat) : Nat := x % 256

/-- Conversion `uint64(x)` of a signed 64-bit value: two's complement. -/
def uint64 (x : Int) : Nat := (x % 2 ^ 64).toNat

/-- Conversion `int64(x)` of an unsigned 64-bit value: two's complement. -/
def int64 (x : Nat) : Int :=
  if x % 2 ^ 64 < 2 ^ 63 then ((x % 2 ^ 64 : Nat) : Int) else ((x % 2 ^ 64 : Nat) : Int) - 2 ^ 64

namespace LittleEndian

/-- `binary.LittleEndian.Uint32`. -/
def Uint32 (b : List Nat) : Nat :=
  b.getD 0 0 ||| b.getD 1 0 <<< 8 ||| b.getD 2 0 <<< 16 ||| b.getD 3 0 <<< 24

/-- `binary.LittleEndian.Uint64`. -/
def Uint64 (b : List Nat) : Nat :=
  b.getD 0 0 ||| b.getD 1 0 <<< 8 ||| b.getD 2 0 <<< 16 ||| b.getD 3 0 <<< 24 |||
    b.getD 4 0 <<< 32 ||| b.getD 5 0 <<< 40 ||| b.getD 6 0 <<< 48 ||| b.getD 7 0 <<< 56

/-- `binary.LittleEndian.PutUint32` into a fresh `make([]byte, 4)`: the buffer it fills. -/
def PutUint32 (v : Nat) : List Nat :=
  [byte v, byte (v >>> 8), byte (v >>> 16), byte (v >>> 24)]

/-- `binary.LittleEndian.PutUint64` into a fresh `make([]byte, 8)`: the buffer it fills. -/
def PutUint64 (v : Nat) : List Nat :=
  [byte v, byte (v >>> 8), byte (v >>> 16), byte (v >>> 24),
   byte (v >>> 32), byte (v >>> 40), byte (v >>> 48), byte (v >>> 56)]

end LittleEndian

/-! ## `hive.go/bitmask` -/

namespace BitMask

/-- `BitMask.SetFlag`: `bitmask | (1 << pos)`, in a byte. -/
def SetFlag (m pos : Nat) : Nat := m ||| byte (1 <<< pos)

/-- `BitMask.ClearFlag`: `bitmask &^ (1 << pos)`, in a byte. -/
def ClearFlag (m pos : Nat) : Nat := m &&& (255 ^^^ byte (1 <<< pos))

/-- `BitMask.HasFlag`: `bitmask&(1<<pos) > 0`. -/
def HasFlag (m pos : Nat) : Bool := decide (0 < m &&& byte (1 <<< pos))

/-- `BitMask.ModifyFlag`. -/
def ModifyFlag (m pos : Nat) (state : Bool) : Nat :=
  if state then SetFlag m pos else ClearFlag m pos

end BitMask

/-! ## The descriptor and its codec -/

/-- The constant `SnapshotMetadataSpentAddressesEnabled`. -/
def SnapshotMetadataSpentAddressesEnabled : Nat := 0

/-- The struct `SnapshotInfo`. -/
structure SnapshotInfo where
  CoordinatorAddress : Trytes
  Hash : Trytes
  SnapshotIndex : Nat
  PruningIndex : Nat
  Timestamp : Int
  Metadata : Nat
deriving DecidableEq, Repr

/-- The values of the Go field types: `uint32` indices, an `int64` timestamp, a `byte`
of metadata. -/
def SnapshotInfo.InRange (x : SnapshotInfo) : Prop :=
  x.SnapshotIndex < 2 ^ 32 ∧ x.PruningIndex < 2 ^ 32 ∧
    -(2 ^ 63 : Int) ≤ x.Timestamp ∧ x.Timestamp < 2 ^ 63 ∧ x.Metadata < 256

instance (x : SnapshotInfo) : Decidable x.InRange := by
  unfold SnapshotInfo.InRange; infer_instance

/-- A `[]byte`: every element is below `256`. -/
def IsBytes (b : List Nat) : Prop := ∀ v ∈ b, v < 256

instance (b : List Nat) : Decidable (IsBytes b) := by
  unfold IsBytes; infer_instance

/-- The function `SnapshotInfoFromBytes`: the pair `(*SnapshotInfo, error)` it returns. -/
def SnapshotInfoFromBytes (T : Trinary) (bytes : List Nat) :
    Go (Option SnapshotInfo × Option GoError) :=
  if bytes.length ≠ 115 then
    .ret (none, some (.Wrapf .ErrParseSnapshotInfoFailed "Invalid length %d != 115"
      [bytes.length]))
  else do
    let cooAddr ← MustBytesToTrytes T (slice bytes 0 49) 81
    let hash ← MustBytesToTrytes T (slice bytes 49 98) 81
    let snapshotIndex := LittleEndian.Uint32 (slice bytes 98 102)
    let pruningIndex := LittleEndian.Uint32 (slice bytes 102 106)
    let timestamp := int64 (LittleEndian.Uint64 (slice bytes 106 114))
    let metadata := bytes.getD 114 0
    .ret (some
      { CoordinatorAddress := cooAddr
        Hash := hash
        SnapshotIndex := snapshotIndex
        PruningIndex := pruningIndex
        Timestamp := timestamp
        Metadata := metadata }, none)

/-- The method `IsSpentAddressesEnabled`. -/
def SnapshotInfo.IsSpentAddressesEnabled (i : SnapshotInfo) : Bool :=
  BitMask.HasFlag i.Metadata SnapshotMetadataSpentAddressesEnabled

/-- The method `SetSpentAddressesEnabled`: the receiver after the call. -/
def SnapshotInfo.SetSpentAddressesEnabled (i : SnapshotInfo) (enabled : Bool) : SnapshotInfo :=
  if enabled ≠ BitMask.HasFlag i.Metadata SnapshotMetadataSpentAddressesEnabled then
    { i with Metadata :=
        BitMask.ModifyFlag i.Metadata SnapshotMetadataSpentAddressesEnabled enabled }
  else i

/-- The method `GetBytes`. -/
def SnapshotInfo.GetBytes (T : Trinary) (i : SnapshotInfo) : Go (List Nat) := do
  let cooBytes ← MustTrytesToBytes T i.CoordinatorAddress
  let bytes ← sliceTo cooBytes 49
  let hashBytes ← MustTrytesToBytes T i.Hash
  let hashBytes49 ← sliceTo hashBytes 49
  let bytes := bytes ++ hashBytes49
  let snapshotIndexBytes := LittleEndian.PutUint32 (uint32 i.SnapshotIndex)
  let bytes := bytes ++ snapshotIndexBytes
  let pruningIndexBytes := LittleEndian.PutUint32 (uint32 i.PruningIndex)
  let bytes := bytes ++ pruningIndexBytes
  let timestampBytes := LittleEndian.PutUint64 (uint64 i.Timestamp)
  let bytes := bytes ++ timestampBytes
  let bytes := bytes ++ [byte i.Metadata]
  .ret bytes

/-! ## The registry -/

/-- The database helpers `readSnapshotInfoFromDatabase` and `storeSnapshotInfoInDatabase`
of the package, over a database of type `D`. -/
structure Storage (D : Type) where
  readSnapshotInfoFromDatabase : D → Option SnapshotInfo × Option GoError
  storeSnapshotInfoInDatabase : Option SnapshotInfo → D → D × Option GoError

/-- The package variables `snapshot` and `latestSeenMilestoneIndexFromSnapshot`, with the
database behind the storage helpers. A nil pointer is `none`. -/
structure Registry (D : Type) where
  snapshot : Option SnapshotInfo
  latestSeenMilestoneIndexFromSnapshot : Nat
  db : D

/-- The package variables at program start: `snapshot` is nil and the counter is
`milestone.Index(0)`. -/
def Registry.initial {D : Type} (db : D) : Registry D :=
  { snapshot := none, latestSeenMilestoneIndexFromSnapshot := 0, db := db }

/-- The function `loadSnapshotInfo`. -/
def loadSnapshotInfo {D : Type} (S : Storage D) (r : Registry D) : Run (Registry D) Unit :=
  match S.readSnapshotInfoFromDatabase r.db with
  | (_, some err) => .panicked r err
  | (info, none) => .returned { r with snapshot := info } ()

/-- The function `SetSnapshotInfo`. -/
def SetSnapshotInfo {D : Type} (S : Storage D) (sn : Option SnapshotInfo) (r : Registry D) :
    Run (Registry D) Unit :=
  match S.storeSnapshotInfoInDatabase sn r.db with
  | (db, some err) => .panicked { r with db := db } err
  | (db, none) => .returned { r with db := db, snapshot := sn } ()

/-- The function `GetSnapshotInfo`. -/
def GetSnapshotInfo {D : Type} (r : Registry D) : Option SnapshotInfo :=
  r.snapshot

/-- The function `SetSnapshotMilestone`. -/
def SetSnapshotMilestone {D : Type} (S : Storage D) (coordinatorAddress milestoneHash : Trytes)
    (snapshotIndex pruningIndex : Nat) (timestamp : Int) (spentAddressesEnabled : Bool)
    (r : Registry D) : Run (Registry D) Unit :=
  let sn : SnapshotInfo :=
    { CoordinatorAddress := coordinatorAddress
      Hash := milestoneHash
      SnapshotIndex := snapshotIndex
      PruningIndex := pruningIndex
      Timestamp := timestamp
      Metadata := 0 }
  let sn := sn.SetSpentAddressesEnabled spentAddressesEnabled
  SetSnapshotInfo S (some sn) r

/-- The function `SetLatestSeenMilestoneIndexFromSnapshot`: the registry after the call. -/
def SetLatestSeenMilestoneIndexFromSnapshot {D : Type} (milestoneIndex : Nat)
    (r : Registry D) : Registry D :=
  if r.latestSeenMilestoneIndexFromSnapshot < milestoneIndex then
    { r with latestSeenMilestoneIndexFromSnapshot := milestoneIndex }
  else r

/-- The function `GetLatestSeenMilestoneIndexFromSnapshot`. -/
def GetLatestSeenMilestoneIndexFromSnapshot {D : Type} (r : Registry D) : Nat :=
  r.latestSeenMilestoneIndexFromSnapshot

/-- The transform round-trips on the tryte string `t`:
`MustBytesToTrytes(MustTrytesToBytes(t)[:49], 81) = t`. -/
def Trinary.RoundTripsOn (T : Trinary) (t : Trytes) : Prop :=
  (do let b ← MustTrytesToBytes T t
      let s ← sliceTo b 49
      MustBytesToTrytes T s 81) = Go.ret t

/-- The transform is lossless on the byte span `s`:
`MustTrytesToBytes(MustBytesToTrytes(s, 81))[:49] = s`. -/
def Trinary.LosslessOn (T : Trinary) (s : List Nat) : Prop :=
  (do let t ← MustBytesToTrytes T s 81
      let b ← MustTrytesToBytes T t
      sliceTo b 49) = Go.ret s

instance (T : Trinary) (t : Trytes) : Decidable (T.RoundTripsOn t) := by
  unfold Trinary.RoundTripsOn; infer_instance

instance (T : Trinary) (s : List Nat) : Decidable (T.LosslessOn s) := by
  unfold Trinary.LosslessOn; infer_instance

/-! ## A concrete tryte transform

Balanced ternary with five trits in a byte and three trits in a tryte. A trit `t` is kept
as the digit `t + 1`. It instantiates `Trinary` on concrete data; every general statement
below quantifies over all of `Trinary`. -/

namespace T5B1

/-- The `n` lowest base-3 digits of `v`, lowest first. -/
def digits3 : Nat → Nat → List Nat
  | 0, _ => []
  | n + 1, v => v % 3 :: digits3 n (v / 3)

/-- The number with the given base-3 digits, lowest first. -/
def ofDigits3 : List Nat → Nat
  | [] => 0
  | d :: ds => d + 3 * ofDigits3 ds

/-- Groups of five trits; a shorter last group is filled with the zero trit. -/
def groups5 : List Nat → List (List Nat)
  | a :: b :: c :: d :: e :: rest => [a, b, c, d, e] :: groups5 rest
  | [] => []
  | l => [l ++ List.replicate (5 - l.length) 1]

/-- Groups of three trits; a shorter last group is filled with the zero trit. -/
def groups3 : List Nat → List (List Nat)
  | a :: b :: c :: rest => [a, b, c] :: groups3 rest
  | [] => []
  | l => [l ++ List.replicate (3 - l.length) 1]

/-- The tryte alphabet: `9` is zero, `A`..`M` are 1..13, `N`..`Z` are -13..-1. -/
def alphabet : List Char := "9ABCDEFGHIJKLMNOPQRSTUVWXYZ".toList

/-- The three trits of a tryte character, or nothing outside the alphabet. -/
def tritsOfTryte (c : Char) : Option (List Nat) :=
  let i := alphabet.indexOf c
  if i ≤ 13 then some (digits3 3 (i + 13))
  else if i < 27 then some (digits3 3 (i - 14))
  else none

/-- The tryte character of three trits. -/
def tryteOfTrits (g : List Nat) : Char :=
  let w := ofDigits3 g
  alphabet.getD (if 13 ≤ w then w - 13 else w + 14) '9'

/-- The five trits of a byte read as `int8`, or nothing outside -121..121. -/
def tritsOfByte (b : Nat) : Option (List Nat) :=
  if b ≤ 121 then some (digits3 5 (b + 121))
  else if 135 ≤ b ∧ b < 256 then some (digits3 5 (b - 135))
  else none

/-- The byte (an `int8` in two's complement) of five trits. -/
def byteOfTrits (g : List Nat) : Nat :=
  let u := ofDigits3 g
  if 121 ≤ u then u - 121 else u + 135

/-- All trits of a tryte string. -/
def trytesToTrits : List Char → Option (List Nat)
  | [] => some []
  | c :: cs =>
    match tritsOfTryte c, trytesToTrits cs with
    | some t, some ts => some (t ++ ts)
    | _, _ => none

/-- All trits of a byte string. -/
def bytesToTrits : List Nat → Option (List Nat)
  | [] => some []
  | b :: bs =>
    match tritsOfByte b, bytesToTrits bs with
    | some t, some ts => some (t ++ ts)
    | _, _ => none

/-- The sample `TrytesToBytes`. -/
def TrytesToBytes (trytes : Trytes) : Except GoError (List Nat) :=
  match trytesToTrits trytes.data with
  | some trits => .ok ((groups5 trits).map byteOfTrits)
  | none => .error (.external 0)

/-- The sample `BytesToTrytes`. -/
def BytesToTrytes (bytes : List Nat) (numTrytes : Nat) : Except GoError Trytes :=
  if 3 * numTrytes < (bytes.length - 1) * 5 + 1 ∨ bytes.length * 5 < 3 * numTrytes then
    .error (.external 1)
  else
    match bytesToTrits bytes with
    | some trits => .ok (String.mk ((groups3 (trits.take (3 * numTrytes))).map tryteOfTrits))
    | none => .error (.external 2)

/-- The sample transform. -/
def trinary : Trinary :=
  { BytesToTrytes := BytesToTrytes, TrytesToBytes := TrytesToBytes }

end T5B1

/-- The descriptor of the documented scenario: 81 times `A`, 81 times `B`, indices 100
and 50, timestamp 1600000000, spent-addresses flag set. -/
def scenario : SnapshotInfo :=
  { CoordinatorAddress := String.mk (List.replicate 81 'A')
    Hash := String.mk (List.replicate 81 'B')
    SnapshotIndex := 100
    PruningIndex := 50
    Timestamp := 1600000000
    Metadata := 1 }

/-- The 115 bytes of the documented scenario under the balanced-ternary transform. -/
def scenarioBytes : List Nat :=
  (List.replicate 16 [28, 84, 9]).flatten ++ [1] ++
    ((List.replicate 16 [56, 181, 19]).flatten ++ [2]) ++
    [100, 0, 0, 0, 50, 0, 0, 0, 0, 16, 94, 95, 0, 0, 0, 0, 1]

/-- A 115-byte buffer of the byte 122, which is no group of five trits. -/
def malformedBytes : List Nat := List.replicate 115 122

/-- A storage over a one-cell database: it keeps the descriptor stored last and refuses
a nil descriptor. -/
def cellStorage : Storage (Option SnapshotInfo) :=
  { readSnapshotInfoFromDatabase := fun db => (db, none)
    storeSnapshotInfoInDatabase := fun sn db =>
      match sn with
      | some d => (some d, none)
      | none => (db, some (.external 3)) }

/-- A storage whose every access fails. -/
def brokenStorage : Storage Unit :=
  { readSnapshotInfoFromDatabase := fun _ => (none, some (.external 4))
    storeSnapshotInfoInDatabase := fun _ db => (db, some (.external 4)) }

/-- A storage that reports success on every store and keeps nothing: every read finds
no record. -/
def forgetfulStorage : Storage Unit :=
  { readSnapshotInfoFromDatabase := fun _ => (none, none)
    storeSnapshotInfoInDatabase := fun _ db => (db, none) }

/-! ## Runs of registry operations -/

/-- The package variables a call leaves behind, whether it returned or panicked. -/
def Run.state {σ α : Type} : Run σ α → σ
  | .returned s _ => s
  | .panicked s _ => s

/-- One call of a function of the registry, with its arguments. -/
inductive Op where
  | load : Op
  | setInfo (sn : Option SnapshotInfo) : Op
  | setMilestone (coordinatorAddress milestoneHash : Trytes) (snapshotIndex pruningIndex : Nat)
      (timestamp : Int) (spentAddressesEnabled : Bool) : Op
  | get : Op
  | setLatestSeen (milestoneIndex : Nat) : Op
  | getLatestSeen : Op

/-- The package variables after one call. -/
def Op.run {D : Type} (S : Storage D) (op : Op) (r : Registry D) : Registry D :=
  match op with
  | .load => (loadSnapshotInfo S r).state
  | .setInfo sn => (SetSnapshotInfo S sn r).state
  | .setMilestone c h si pi t e => (SetSnapshotMilestone S c h si pi t e r).state
  | .get => r
  | .setLatestSeen i => SetLatestSeenMilestoneIndexFromSnapshot i r
  | .getLatestSeen => r

/-- The package variables after a sequence of calls, in order. -/
def runOps {D : Type} (S : Storage D) (ops : List Op) (r : Registry D) : Registry D :=
  ops.foldl (fun s op => op.run S s) r

/-! ## The flag write without its guard -/

/-- The update of `SetSpentAddressesEnabled` with the guard left out: the metadata after
an unconditional `ModifyFlag` of the spent-addresses bit. -/
def SnapshotInfo.SetSpentAddressesEnabledUnguarded (i : SnapshotInfo) (enabled : Bool) :
    SnapshotInfo :=
  { i with Metadata :=
      BitMask.ModifyFlag i.Metadata SnapshotMetadataSpentAddressesEnabled enabled }

/-! ## Integer conversions and the little-endian codec -/

theorem or_shiftLeft_eq_add (a b k : Nat) (h : b < 2 ^ k) : b ||| a <<< k = b + a * 2 ^ k := by
  rw [Nat.or_comm, Nat.shiftLeft_eq, Nat.mul_comm a, ← Nat.mul_add_lt_is_or h, Nat.add_comm]

theorem Uint32_eq_sum (b0 b1 b2 b3 : Nat) (h0 : b0 < 256) (h1 : b1 < 256) (h2 : b2 < 256) :
    LittleEndian.Uint32 [b0, b1, b2, b3] = b0 + 256 * b1 + 65536 * b2 + 16777216 * b3 := by
  simp only [LittleEndian.Uint32, List.getD_cons_zero, List.getD_cons_succ]
  rw [or_shiftLeft_eq_add b1 b0 8 (by omega), or_shiftLeft_eq_add b2 _ 16 (by omega),
    or_shiftLeft_eq_add b3 _ 24 (by omega)]
  omega

theorem Uint64_eq_sum (b0 b1 b2 b3 b4 b5 b6 b7 : Nat) (h0 : b0 < 256) (h1 : b1 < 256)
    (h2 : b2 < 256) (h3 : b3 < 256) (h4 : b4 < 256) (h5 : b5 < 256) (h6 : b6 < 256) :
    LittleEndian.Uint64 [b0, b1, b2, b3, b4, b5, b6, b7] =
      b0 + 2 ^ 8 * b1 + 2 ^ 16 * b2 + 2 ^ 24 * b3 + 2 ^ 32 * b4 + 2 ^ 40 * b5 + 2 ^ 48 * b6
        + 2 ^ 56 * b7 := by
  simp only [LittleEndian.Uint64, List.getD_cons_zero, List.getD_cons_succ]
  rw [or_shiftLeft_eq_add b1 b0 8 (by omega), or_shiftLeft_eq_add b2 _ 16 (by omega),
    or_shiftLeft_eq_add b3 _ 24 (by omega), or_shiftLeft_eq_add b4 _ 32 (by omega),
    or_shiftLeft_eq_add b5 _ 40 (by omega), or_shiftLeft_eq_add b6 _ 48 (by omega),
    or_shiftLeft_eq_add b7 _ 56 (by omega)]
  omega

theorem Uint32_PutUint32 (v : Nat) (h : v < 2 ^ 32) :
    LittleEndian.Uint32 (LittleEndian.PutUint32 v) = v := by
  unfold LittleEndian.PutUint32 byte
  rw [Uint32_eq_sum _ _ _ _ (Nat.mod_lt _ (by norm_num)) (Nat.mod_lt _ (by norm_num))
    (Nat.mod_lt _ (by norm_num))]
  simp only [Nat.shiftRight_eq_div_pow]
  omega

theorem Uint64_PutUint64 (v : Nat) (h : v < 2 ^ 64) :
    LittleEndian.Uint64 (LittleEndian.PutUint64 v) = v := by
  unfold LittleEndian.PutUint64 byte
  rw [Uint64_eq_sum _ _ _ _ _ _ _ _ (Nat.mod_lt _ (by norm_num)) (Nat.mod_lt _ (by norm_num))
    (Nat.mod_lt _ (by norm_num)) (Nat.mod_lt _ (by norm_num)) (Nat.mod_lt _ (by norm_num))
    (Nat.mod_lt _ (by norm_num)) (Nat.mod_lt _ (by norm_num))]
  simp only [Nat.shiftRight_eq_div_pow]
  omega

theorem PutUint32_Uint32 (b0 b1 b2 b3 : Nat) (h0 : b0 < 256) (h1 : b1 < 256) (h2 : b2 < 256)
    (h3 : b3 < 256) :
    LittleEndian.PutUint32 (uint32 (LittleEndian.Uint32 [b0, b1, b2, b3])) = [b0, b1, b2, b3] := by
  rw [Uint32_eq_sum _ _ _ _ h0 h1 h2]
  simp only [LittleEndian.PutUint32, byte, uint32, Nat.shiftRight_eq_div_pow]
  have e0 : (b0 + 256 * b1 + 65536 * b2 + 16777216 * b3) % 2 ^ 32 % 256 = b0 := by omega
  have e1 : (b0 + 256 * b1 + 65536 * b2 + 16777216 * b3) % 2 ^ 32 / 2 ^ 8 % 256 = b1 := by omega
  have e2 : (b0 + 256 * b1 + 65536 * b2 + 16777216 * b3) % 2 ^ 32 / 2 ^ 16 % 256 = b2 := by
    omega
  have e3 : (b0 + 256 * b1 + 65536 * b2 + 16777216 * b3) % 2 ^ 32 / 2 ^ 24 % 256 = b3 := by
    omega
  rw [e0, e1, e2, e3]

theorem Uint64_lt (b0 b1 b2 b3 b4 b5 b6 b7 : Nat) (h0 : b0 < 256) (h1 : b1 < 256)
    (h2 : b2 < 256) (h3 : b3 < 256) (h4 : b4 < 256) (h5 : b5 < 256) (h6 : b6 < 256)
    (h7 : b7 < 256) : LittleEndian.Uint64 [b0, b1, b2, b3, b4, b5, b6, b7] < 2 ^ 64 := by
  rw [Uint64_eq_sum _ _ _ _ _ _ _ _ h0 h1 h2 h3 h4 h5 h6]
  omega

theorem horner_mod (b r : Nat) (h : b < 256) : (b + 256 * r) % 256 = b := by omega

theorem horner_shiftRight (b r : Nat) (h : b < 256) : (b + 256 * r) >>> 8 = r := by
  rw [Nat.shiftRight_eq_div_pow]
  omega

theorem Uint64_eq_horner (b0 b1 b2 b3 b4 b5 b6 b7 : Nat) (h0 : b0 < 256) (h1 : b1 < 256)
    (h2 : b2 < 256) (h3 : b3 < 256) (h4 : b4 < 256) (h5 : b5 < 256) (h6 : b6 < 256) :
    LittleEndian.Uint64 [b0, b1, b2, b3, b4, b5, b6, b7] =
      b0 + 256 * (b1 + 256 * (b2 + 256 * (b3 + 256 * (b4 + 256 * (b5 + 256 * (b6 + 256 * b7))))))
      := by
  rw [Uint64_eq_sum _ _ _ _ _ _ _ _ h0 h1 h2 h3 h4 h5 h6]
  omega

theorem PutUint64_Uint64 (b0 b1 b2 b3 b4 b5 b6 b7 : Nat) (h0 : b0 < 256) (h1 : b1 < 256)
    (h2 : b2 < 256) (h3 : b3 < 256) (h4 : b4 < 256) (h5 : b5 < 256) (h6 : b6 < 256)
    (h7 : b7 < 256) :
    LittleEndian.PutUint64 (LittleEndian.Uint64 [b0, b1, b2, b3, b4, b5, b6, b7]) =
      [b0, b1, b2, b3, b4, b5, b6, b7] := by
  rw [Uint64_eq_horner _ _ _ _ _ _ _ _ h0 h1 h2 h3 h4 h5 h6]
  generalize hv : b0 + 256 * (b1 + 256 * (b2 + 256 * (b3 + 256 * (b4 + 256 * (b5 + 256 *
    (b6 + 256 * b7)))))) = v
  have s8 : v >>> 8 = b1 + 256 * (b2 + 256 * (b3 + 256 * (b4 + 256 * (b5 + 256 *
      (b6 + 256 * b7))))) := by rw [← hv]; exact horner_shiftRight _ _ h0
  have s16 : v >>> 16 = b2 + 256 * (b3 + 256 * (b4 + 256 * (b5 + 256 * (b6 + 256 * b7)))) := by
    rw [show (16 : Nat) = 8 + 8 from rfl, Nat.shiftRight_add, s8]; exact horner_shiftRight _ _ h1
  have s24 : v >>> 24 = b3 + 256 * (b4 + 256 * (b5 + 256 * (b6 + 256 * b7))) := by
    rw [show (24 : Nat) = 16 + 8 from rfl, Nat.shiftRight_add, s16]
    exact horner_shiftRight _ _ h2
  have s32 : v >>> 32 = b4 + 256 * (b5 + 256 * (b6 + 256 * b7)) := by
    rw [show (32 : Nat) = 24 + 8 from rfl, Nat.shiftRight_add, s24]
    exact horner_shiftRight _ _ h3
  have s40 : v >>> 40 = b5 + 256 * (b6 + 256 * b7) := by
    rw [show (40 : Nat) = 32 + 8 from rfl, Nat.shiftRight_add, s32]
    exact horner_shiftRight _ _ h4
  have s48 : v >>> 48 = b6 + 256 * b7 := by
    rw [show (48 : Nat) = 40 + 8 from rfl, Nat.shiftRight_add, s40]
    exact horner_shiftRight _ _ h5
  have s56 : v >>> 56 = b7 := by
    rw [show (56 : Nat) = 48 + 8 from rfl, Nat.shiftRight_add, s48]
    exact horner_shiftRight _ _ h6
  simp only [LittleEndian.PutUint64, byte]
  rw [s8, s16, s24, s32, s40, s48, s56, ← hv, horner_mod _ _ h0, horner_mod _ _ h1,
    horner_mod _ _ h2, horner_mod _ _ h3, horner_mod _ _ h4, horner_mod _ _ h5,
    horner_mod _ _ h6, Nat.mod_eq_of_lt h7]

theorem int64_uint64 (t : Int) (h1 : -(2 ^ 63 : Int) ≤ t) (h2 : t < 2 ^ 63) :
    int64 (uint64 t) = t := by
  unfold int64 uint64
  have hu : ((t % 2 ^ 64).toNat : Int) = t % 2 ^ 64 := Int.toNat_of_nonneg (by omega)
  have hlt : (t % 2 ^ 64).toNat < 2 ^ 64 := by omega
  rw [Nat.mod_eq_of_lt hlt]
  split <;> omega

theorem uint64_int64 (u : Nat) (h : u < 2 ^ 64) : uint64 (int64 u) = u := by
  unfold int64 uint64
  rw [Nat.mod_eq_of_lt h]
  split <;> omega

/-! ## The tryte transform hypotheses and slices -/

theorem Go.bind_ret {α β : Type} (a : α) (f : α → Go β) : (Go.ret a >>= f) = f a := rfl

theorem Go.bind_panic {α β : Type} (e : GoError) (f : α → Go β) :
    (Go.panic e >>= f) = Go.panic e := rfl

theorem roundTripsOn_iff (T : Trinary) (t : Trytes) :
    T.RoundTripsOn t ↔ ∃ b, T.TrytesToBytes t = .ok b ∧ 49 ≤ b.length ∧
      T.BytesToTrytes (b.take 49) 81 = .ok t := by
  unfold Trinary.RoundTripsOn MustTrytesToBytes sliceTo MustBytesToTrytes
  cases h : T.TrytesToBytes t with
  | error e => simp [Go.bind_panic]
  | ok b =>
    simp only [Go.bind_ret, Except.ok.injEq, exists_eq_left']
    by_cases hl : 49 ≤ b.length
    · simp only [hl, if_true, Go.bind_ret, true_and]
      cases h2 : T.BytesToTrytes (List.take 49 b) 81 <;> simp
    · simp [hl, Go.bind_panic]

theorem losslessOn_iff (T : Trinary) (s : List Nat) :
    T.LosslessOn s ↔ ∃ t b, T.BytesToTrytes s 81 = .ok t ∧ T.TrytesToBytes t = .ok b ∧
      49 ≤ b.length ∧ b.take 49 = s := by
  unfold Trinary.LosslessOn MustTrytesToBytes sliceTo MustBytesToTrytes
  cases h : T.BytesToTrytes s 81 with
  | error e => simp [Go.bind_panic]
  | ok t =>
    simp only [Go.bind_ret, Except.ok.injEq, exists_eq_left']
    cases h2 : T.TrytesToBytes t with
    | error e => simp [Go.bind_panic, h2]
    | ok b =>
      by_cases hl : 49 ≤ b.length
      · simp [hl, h2, Go.bind_ret]
      · simp [hl, h2, Go.bind_ret, Go.bind_panic]

theorem slice_append_left (m s : List Nat) (hi : Nat) (h : m.length = hi) :
    slice (m ++ s) 0 hi = m := by
  simp [slice, ← h]

theorem slice_append_right (p l : List Nat) (lo hi : Nat) (h : p.length ≤ lo) :
    slice (p ++ l) lo hi = slice l (lo - p.length) (hi - p.length) := by
  unfold slice
  rw [List.drop_append_eq_append_drop, List.drop_eq_nil_of_le h, List.nil_append]
  congr 1
  omega

theorem getD_slice (b : List Nat) (lo hi k : Nat) (h : k < hi - lo) :
    (slice b lo hi).getD k 0 = b.getD (lo + k) 0 := by
  simp [slice, List.getD_eq_getElem?_getD, List.getElem?_take, h, List.getElem?_drop]

theorem slice_eq_four (b : List Nat) (lo : Nat) (h : lo + 4 ≤ b.length) :
    slice b lo (lo + 4) = [b.getD lo 0, b.getD (lo + 1) 0, b.getD (lo + 2) 0, b.getD (lo + 3) 0] := by
  apply List.ext_getElem
  · simp [slice]; omega
  · intro n h1 h2
    simp at h2
    have := getD_slice b lo (lo + 4) n (by omega)
    rw [List.getD_eq_getElem _ _ h1] at this
    rw [this]
    interval_cases n <;> simp

theorem GetBytes_eq (T : Trinary) (x : SnapshotInfo) (cb hb : List Nat)
    (hc : T.TrytesToBytes x.CoordinatorAddress = .ok cb) (hcl : 49 ≤ cb.length)
    (hh : T.TrytesToBytes x.Hash = .ok hb) (hhl : 49 ≤ hb.length) :
    x.GetBytes T = .ret (cb.take 49 ++ (hb.take 49 ++ (LittleEndian.PutUint32 (uint32 x.SnapshotIndex)
      ++ (LittleEndian.PutUint32 (uint32 x.PruningIndex) ++
        (LittleEndian.PutUint64 (uint64 x.Timestamp) ++ [byte x.Metadata]))))) := by
  simp [SnapshotInfo.GetBytes, MustTrytesToBytes, hc, hh, sliceTo, hcl, hhl, Go.bind_ret]

/-! ## Slices of the 115-byte layout -/

theorem layout_slices (A B I P Tm : List Nat) (m : Nat) (hA : A.length = 49)
    (hB : B.length = 49) (hI : I.length = 4) (hP : P.length = 4) (hT : Tm.length = 8) :
    (A ++ (B ++ (I ++ (P ++ (Tm ++ [m]))))).length = 115 ∧
    slice (A ++ (B ++ (I ++ (P ++ (Tm ++ [m]))))) 0 49 = A ∧
    slice (A ++ (B ++ (I ++ (P ++ (Tm ++ [m]))))) 49 98 = B ∧
    slice (A ++ (B ++ (I ++ (P ++ (Tm ++ [m]))))) 98 102 = I ∧
    slice (A ++ (B ++ (I ++ (P ++ (Tm ++ [m]))))) 102 106 = P ∧
    slice (A ++ (B ++ (I ++ (P ++ (Tm ++ [m]))))) 106 114 = Tm ∧
    (A ++ (B ++ (I ++ (P ++ (Tm ++ [m]))))).getD 114 0 = m := by
  refine ⟨by simp [hA, hB, hI, hP, hT], slice_append_left _ _ _ hA, ?_, ?_, ?_, ?_, ?_⟩
  · rw [slice_append_right _ _ _ _ (by omega), hA]
    exact slice_append_left _ _ _ hB
  · rw [slice_append_right _ _ _ _ (by omega), hA, slice_append_right _ _ _ _ (by omega), hB]
    exact slice_append_left _ _ _ hI
  · rw [slice_append_right _ _ _ _ (by omega), hA, slice_append_right _ _ _ _ (by omega), hB,
      slice_append_right _ _ _ _ (by omega), hI]
    exact slice_append_left _ _ _ hP
  · rw [slice_append_right _ _ _ _ (by omega), hA, slice_append_right _ _ _ _ (by omega), hB,
      slice_append_right _ _ _ _ (by omega), hI, slice_append_right _ _ _ _ (by omega), hP]
    exact slice_append_left _ _ _ hT
  · simp only [List.getD_eq_getElem?_getD]
    rw [List.getElem?_append_right (by omega), hA, List.getElem?_append_right (by omega), hB,
      List.getElem?_append_right (by omega), hI, List.getElem?_append_right (by omega), hP,
      List.getElem?_append_right (by omega), hT]
    rfl

theorem SnapshotInfoFromBytes_eq (T : Trinary) (b : List Nat) (c h : Trytes)
    (hl : b.length = 115) (hc : T.BytesToTrytes (slice b 0 49) 81 = .ok c)
    (hh : T.BytesToTrytes (slice b 49 98) 81 = .ok h) :
    SnapshotInfoFromBytes T b = .ret (some
      { CoordinatorAddress := c
        Hash := h
        SnapshotIndex := LittleEndian.Uint32 (slice b 98 102)
        PruningIndex := LittleEndian.Uint32 (slice b 102 106)
        Timestamp := int64 (LittleEndian.Uint64 (slice b 106 114))
        Metadata := b.getD 114 0 }, none) := by
  simp [SnapshotInfoFromBytes, hl, MustBytesToTrytes, hc, hh, Go.bind_ret]

theorem uint32_of_lt (n : Nat) (h : n < 2 ^ 32) : uint32 n = n := Nat.mod_eq_of_lt h

theorem uint64_lt (t : Int) : uint64 t < 2 ^ 64 := by
  unfold uint64
  omega

theorem slice_append_slice (b : List Nat) (lo mid hi : Nat) (h1 : lo ≤ mid) (h2 : mid ≤ hi) :
    slice b lo mid ++ slice b mid hi = slice b lo hi := by
  unfold slice
  have e1 : List.drop mid b = List.drop (mid - lo) (List.drop lo b) := by
    rw [List.drop_drop]; congr 1; omega
  have e2 : hi - lo = (mid - lo) + (hi - mid) := by omega
  rw [e1, e2, List.take_add]

theorem slice_full (b : List Nat) (n : Nat) (h : b.length = n) : slice b 0 n = b := by
  simp [slice, ← h]

theorem slice_eq_one (b : List Nat) (lo : Nat) (h : lo + 1 ≤ b.length) :
    slice b lo (lo + 1) = [b.getD lo 0] := by
  apply List.ext_getElem
  · simp [slice]; omega
  · intro n h1 h2
    simp at h2
    have := getD_slice b lo (lo + 1) n (by omega)
    rw [List.getD_eq_getElem _ _ h1] at this
    rw [this]
    subst h2
    simp

theorem slice_eq_eight (b : List Nat) (lo : Nat) (h : lo + 8 ≤ b.length) :
    slice b lo (lo + 8) = [b.getD lo 0, b.getD (lo + 1) 0, b.getD (lo + 2) 0, b.getD (lo + 3) 0,
      b.getD (lo + 4) 0, b.getD (lo + 5) 0, b.getD (lo + 6) 0, b.getD (lo + 7) 0] := by
  apply List.ext_getElem
  · simp [slice]; omega
  · intro n h1 h2
    simp at h2
    have := getD_slice b lo (lo + 8) n (by omega)
    rw [List.getD_eq_getElem _ _ h1] at this
    rw [this]
    interval_cases n <;> simp

theorem getD_lt_of_isBytes (b : List Nat) (hb : IsBytes b) (i : Nat) : b.getD i 0 < 256 := by
  rw [List.getD_eq_getElem?_getD]
  cases h : b[i]? with
  | none => simp
  | some v =>
    have := List.getElem?_mem h
    simpa using hb v this

theorem slices_recompose (b : List Nat) (hl : b.length = 115) :
    slice b 0 49 ++ (slice b 49 98 ++ (slice b 98 102 ++ (slice b 102 106 ++
      (slice b 106 114 ++ [b.getD 114 0])))) = b := by
  rw [← slice_eq_one b 114 (by omega), slice_append_slice b 106 114 115 (by omega) (by omega),
    slice_append_slice b 102 106 115 (by omega) (by omega),
    slice_append_slice b 98 102 115 (by omega) (by omega),
    slice_append_slice b 49 98 115 (by omega) (by omega),
    slice_append_slice b 0 49 115 (by omega) (by omega), slice_full b 115 hl]

theorem PutUint32_eq_map (n : Nat) (h : n < 2 ^ 32) :
    LittleEndian.PutUint32 (uint32 n) = (List.range 4).map (fun k => n / 256 ^ k % 256) := by
  rw [uint32_of_lt n h]
  simp [LittleEndian.PutUint32, byte, List.range, List.range.loop, Nat.shiftRight_eq_div_pow]

theorem PutUint64_eq_map (n : Nat) :
    LittleEndian.PutUint64 n = (List.range 8).map (fun k => n / 256 ^ k % 256) := by
  simp [LittleEndian.PutUint64, byte, List.range, List.range.loop, Nat.shiftRight_eq_div_pow]

/-! ## The codec -/

/-- C1: decoding the encoding of a descriptor gives the descriptor back. For every
descriptor whose two tryte fields round-trip through the transform and whose integer
fields lie in their Go types, `GetBytes` returns a buffer on which `SnapshotInfoFromBytes`
returns no error and the same six fields. -/
theorem SnapshotInfoFromBytes_GetBytes (T : Trinary) (x : SnapshotInfo)
    (hc : T.RoundTripsOn x.CoordinatorAddress) (hh : T.RoundTripsOn x.Hash)
    (hr : x.InRange) :
    ∃ b, x.GetBytes T = .ret b ∧ SnapshotInfoFromBytes T b = .ret (some x, none) := by
  obtain ⟨cb, hcb, hcl, hcr⟩ := (roundTripsOn_iff T _).1 hc
  obtain ⟨hb, hhb, hhl, hhr⟩ := (roundTripsOn_iff T _).1 hh
  obtain ⟨h1, h2, h3, h4, h5⟩ := hr
  refine ⟨_, GetBytes_eq T x cb hb hcb hcl hhb hhl, ?_⟩
  obtain ⟨l, sA, sB, sI, sP, sT, sM⟩ := layout_slices (cb.take 49) (hb.take 49)
    (LittleEndian.PutUint32 (uint32 x.SnapshotIndex))
    (LittleEndian.PutUint32 (uint32 x.PruningIndex))
    (LittleEndian.PutUint64 (uint64 x.Timestamp)) (byte x.Metadata)
    (by simp; omega) (by simp; omega) rfl rfl rfl
  rw [SnapshotInfoFromBytes_eq T _ x.CoordinatorAddress x.Hash l (by rw [sA]; exact hcr)
    (by rw [sB]; exact hhr), sI, sP, sT, sM, uint32_of_lt _ h1, uint32_of_lt _ h2,
    Uint32_PutUint32 _ h1, Uint32_PutUint32 _ h2, Uint64_PutUint64 _ (uint64_lt _),
    int64_uint64 _ h3 h4]
  simp [byte, Nat.mod_eq_of_lt h5]

/-- C1 at the documented scenario, with the balanced-ternary transform. -/
theorem SnapshotInfoFromBytes_GetBytes_witness :
    T5B1.trinary.RoundTripsOn scenario.CoordinatorAddress ∧
    T5B1.trinary.RoundTripsOn scenario.Hash ∧ scenario.InRange ∧
    ∃ b, scenario.GetBytes T5B1.trinary = .ret b ∧
      SnapshotInfoFromBytes T5B1.trinary b = .ret (some scenario, none) :=
  ⟨by decide, by decide, by decide,
    SnapshotInfoFromBytes_GetBytes T5B1.trinary scenario (by decide) (by decide) (by decide)⟩

/-- C2: length guard. On every input whose length is not 115, `SnapshotInfoFromBytes`
returns a nil descriptor and the error `ErrParseSnapshotInfoFailed` wrapped with the
length; the result is the same for every transform and for every input of that length,
so neither the transform nor a byte of the input takes part in it. -/
theorem SnapshotInfoFromBytes_length_guard (T : Trinary) (b : List Nat)
    (h : b.length ≠ 115) :
    SnapshotInfoFromBytes T b = .ret (none,
      some (.Wrapf .ErrParseSnapshotInfoFailed "Invalid length %d != 115" [b.length])) ∧
    (GoError.Wrapf .ErrParseSnapshotInfoFailed "Invalid length %d != 115" [b.length]).Cause
      = .ErrParseSnapshotInfoFailed ∧
    ∀ (T' : Trinary) (b' : List Nat), b'.length = b.length →
      SnapshotInfoFromBytes T' b' = SnapshotInfoFromBytes T b := by
  refine ⟨by simp [SnapshotInfoFromBytes, h], rfl, ?_⟩
  intro T' b' hb'
  have h' : b'.length ≠ 115 := by rw [hb']; exact h
  simp [SnapshotInfoFromBytes, h, h', hb']

/-- C2 at the lengths 0, 114 and 116. -/
theorem SnapshotInfoFromBytes_length_guard_witness :
    ((([] : List Nat).length ≠ 115 ∧ (List.replicate 114 0).length ≠ 115) ∧
      (List.replicate 116 0).length ≠ 115) ∧
    SnapshotInfoFromBytes T5B1.trinary [] = .ret (none,
      some (.Wrapf .ErrParseSnapshotInfoFailed "Invalid length %d != 115" [0])) ∧
    SnapshotInfoFromBytes T5B1.trinary (List.replicate 114 0) = .ret (none,
      some (.Wrapf .ErrParseSnapshotInfoFailed "Invalid length %d != 115" [114])) ∧
    SnapshotInfoFromBytes T5B1.trinary (List.replicate 116 0) = .ret (none,
      some (.Wrapf .ErrParseSnapshotInfoFailed "Invalid length %d != 115" [116])) :=
  ⟨⟨⟨by decide, by decide⟩, by decide⟩,
    (SnapshotInfoFromBytes_length_guard T5B1.trinary [] (by decide)).1,
    (SnapshotInfoFromBytes_length_guard T5B1.trinary (List.replicate 114 0) (by decide)).1,
    (SnapshotInfoFromBytes_length_guard T5B1.trinary (List.replicate 116 0) (by decide)).1⟩

/-- C3: encode layout. For every descriptor whose two tryte fields the transform turns
into at least 49 bytes, the buffer of `GetBytes` holds the first 49 bytes of the
coordinator address at 0..49, the first 49 bytes of the hash at 49..98, the snapshot
index at 98..102 and the pruning index at 102..106 as little-endian 32-bit values, the
timestamp at 106..114 as a little-endian 64-bit value in two's complement, and the
metadata byte at 114. -/
theorem GetBytes_layout (T : Trinary) (x : SnapshotInfo) (cb hb : List Nat)
    (hc : T.TrytesToBytes x.CoordinatorAddress = .ok cb) (hcl : 49 ≤ cb.length)
    (hh : T.TrytesToBytes x.Hash = .ok hb) (hhl : 49 ≤ hb.length) (hr : x.InRange) :
    ∃ b, x.GetBytes T = .ret b ∧
      slice b 0 49 = cb.take 49 ∧
      slice b 49 98 = hb.take 49 ∧
      slice b 98 102 = (List.range 4).map (fun k => x.SnapshotIndex / 256 ^ k % 256) ∧
      slice b 102 106 = (List.range 4).map (fun k => x.PruningIndex / 256 ^ k % 256) ∧
      slice b 106 114 =
        (List.range 8).map (fun k => (x.Timestamp % 2 ^ 64).toNat / 256 ^ k % 256) ∧
      b[114]? = some x.Metadata := by
  obtain ⟨h1, h2, _, _, h5⟩ := hr
  refine ⟨_, GetBytes_eq T x cb hb hc hcl hh hhl, ?_⟩
  obtain ⟨l, sA, sB, sI, sP, sT, sM⟩ := layout_slices (cb.take 49) (hb.take 49)
    (LittleEndian.PutUint32 (uint32 x.SnapshotIndex))
    (LittleEndian.PutUint32 (uint32 x.PruningIndex))
    (LittleEndian.PutUint64 (uint64 x.Timestamp)) (byte x.Metadata)
    (by simp; omega) (by simp; omega) rfl rfl rfl
  refine ⟨sA, sB, by rw [sI, PutUint32_eq_map _ h1], by rw [sP, PutUint32_eq_map _ h2],
    by rw [sT, PutUint64_eq_map]; rfl, ?_⟩
  rw [List.getD_eq_getElem?_getD] at sM
  have hlt : 114 < (List.take 49 cb ++ (List.take 49 hb ++
      (LittleEndian.PutUint32 (uint32 x.SnapshotIndex) ++
        (LittleEndian.PutUint32 (uint32 x.PruningIndex) ++
          (LittleEndian.PutUint64 (uint64 x.Timestamp) ++ [byte x.Metadata]))))).length := by
    omega
  rw [List.getElem?_eq_getElem hlt] at sM ⊢
  simp only [Option.getD_some] at sM
  rw [sM, byte, Nat.mod_eq_of_lt h5]

/-- C3 at the documented scenario: indices 100 and 50, timestamp 1600000000 and the
spent-addresses flag give the bytes `[100,0,0,0]`, `[50,0,0,0]`, the little-endian
bytes of 1600000000 and the byte 1. -/
theorem GetBytes_layout_witness :
    (T5B1.trinary.TrytesToBytes scenario.CoordinatorAddress
        = .ok ((List.replicate 16 [28, 84, 9]).flatten ++ [1]) ∧
      49 ≤ ((List.replicate 16 [28, 84, 9]).flatten ++ [1]).length ∧
      T5B1.trinary.TrytesToBytes scenario.Hash
        = .ok ((List.replicate 16 [56, 181, 19]).flatten ++ [2]) ∧
      49 ≤ ((List.replicate 16 [56, 181, 19]).flatten ++ [2]).length ∧ scenario.InRange) ∧
    ∃ b, scenario.GetBytes T5B1.trinary = .ret b ∧
      slice b 0 49 = List.take 49 ((List.replicate 16 [28, 84, 9]).flatten ++ [1]) ∧
      slice b 49 98 = List.take 49 ((List.replicate 16 [56, 181, 19]).flatten ++ [2]) ∧
      slice b 98 102 = [100, 0, 0, 0] ∧
      slice b 102 106 = [50, 0, 0, 0] ∧
      slice b 106 114 = [0, 16, 94, 95, 0, 0, 0, 0] ∧
      b[114]? = some 1 :=
  ⟨⟨by decide, by decide, by decide, by decide, by decide⟩,
    GetBytes_layout T5B1.trinary scenario ((List.replicate 16 [28, 84, 9]).flatten ++ [1])
      ((List.replicate 16 [56, 181, 19]).flatten ++ [2]) (by decide) (by decide) (by decide)
      (by decide)
      (by decide)⟩

/-- C4: encode length. For every descriptor whose two tryte fields the transform turns
into at least 49 bytes, and for all values of the four other fields, `GetBytes` returns
a buffer of exactly 115 bytes. -/
theorem GetBytes_length (T : Trinary) (x : SnapshotInfo) (cb hb : List Nat)
    (hc : T.TrytesToBytes x.CoordinatorAddress = .ok cb) (hcl : 49 ≤ cb.length)
    (hh : T.TrytesToBytes x.Hash = .ok hb) (hhl : 49 ≤ hb.length) :
    ∃ b, x.GetBytes T = .ret b ∧ b.length = 115 := by
  refine ⟨_, GetBytes_eq T x cb hb hc hcl hh hhl, ?_⟩
  simp [LittleEndian.PutUint32, LittleEndian.PutUint64]
  omega

/-- C4 at a descriptor with the largest indices, a negative timestamp and all eight
metadata bits set. -/
theorem GetBytes_length_witness :
    (T5B1.trinary.TrytesToBytes (String.mk (List.replicate 81 '9'))
        = .ok (List.replicate 49 0) ∧ 49 ≤ (List.replicate 49 0).length ∧
      T5B1.trinary.TrytesToBytes (String.mk (List.replicate 81 'M'))
        = .ok (List.replicate 48 121 ++ [13]) ∧
      49 ≤ (List.replicate 48 121 ++ [13]).length) ∧
    ∃ b, SnapshotInfo.GetBytes T5B1.trinary
        { CoordinatorAddress := String.mk (List.replicate 81 '9')
          Hash := String.mk (List.replicate 81 'M')
          SnapshotIndex := 4294967295
          PruningIndex := 4294967295
          Timestamp := -1
          Metadata := 255 } = .ret b ∧ b.length = 115 :=
  ⟨⟨by decide, by decide, by decide, by decide⟩,
    GetBytes_length T5B1.trinary _ (List.replicate 49 0) (List.replicate 48 121 ++ [13])
      (by decide) (by decide) (by decide) (by decide)⟩

/-- C5: decode layout. On every 115-byte input whose spans 0..49 and 49..98 the
transform accepts, `SnapshotInfoFromBytes` returns no error and the descriptor whose
tryte fields are the transform of the two spans, whose indices are the little-endian
32-bit values at 98..102 and 102..106, whose timestamp is the little-endian 64-bit value
at 106..114 read as a signed number, and whose metadata is the byte at 114. -/
theorem SnapshotInfoFromBytes_layout (T : Trinary) (b : List Nat) (c h : Trytes)
    (hl : b.length = 115) (hb : IsBytes b)
    (hc : T.BytesToTrytes (slice b 0 49) 81 = .ok c)
    (hh : T.BytesToTrytes (slice b 49 98) 81 = .ok h) :
    SnapshotInfoFromBytes T b = .ret (some
      { CoordinatorAddress := c
        Hash := h
        SnapshotIndex :=
          b.getD 98 0 + 256 * b.getD 99 0 + 256 ^ 2 * b.getD 100 0 + 256 ^ 3 * b.getD 101 0
        PruningIndex :=
          b.getD 102 0 + 256 * b.getD 103 0 + 256 ^ 2 * b.getD 104 0 + 256 ^ 3 * b.getD 105 0
        Timestamp :=
          if b.getD 106 0 + 256 * b.getD 107 0 + 256 ^ 2 * b.getD 108 0
              + 256 ^ 3 * b.getD 109 0 + 256 ^ 4 * b.getD 110 0 + 256 ^ 5 * b.getD 111 0
              + 256 ^ 6 * b.getD 112 0 + 256 ^ 7 * b.getD 113 0 < 2 ^ 63 then
            ((b.getD 106 0 + 256 * b.getD 107 0 + 256 ^ 2 * b.getD 108 0
              + 256 ^ 3 * b.getD 109 0 + 256 ^ 4 * b.getD 110 0 + 256 ^ 5 * b.getD 111 0
              + 256 ^ 6 * b.getD 112 0 + 256 ^ 7 * b.getD 113 0 : Nat) : Int)
          else
            ((b.getD 106 0 + 256 * b.getD 107 0 + 256 ^ 2 * b.getD 108 0
              + 256 ^ 3 * b.getD 109 0 + 256 ^ 4 * b.getD 110 0 + 256 ^ 5 * b.getD 111 0
              + 256 ^ 6 * b.getD 112 0 + 256 ^ 7 * b.getD 113 0 : Nat) : Int) - 2 ^ 64
        Metadata := b.getD 114 0 }, none) := by
  have g := getD_lt_of_isBytes b hb
  rw [SnapshotInfoFromBytes_eq T b c h hl hc hh,
    show slice b 98 102 = slice b 98 (98 + 4) from rfl, slice_eq_four b 98 (by omega),
    show slice b 102 106 = slice b 102 (102 + 4) from rfl, slice_eq_four b 102 (by omega),
    show slice b 106 114 = slice b 106 (106 + 8) from rfl, slice_eq_eight b 106 (by omega),
    Uint32_eq_sum _ _ _ _ (g _) (g _) (g _), Uint32_eq_sum _ _ _ _ (g _) (g _) (g _)]
  have hlt := Uint64_lt _ _ _ _ _ _ _ _ (g 106) (g (106 + 1)) (g (106 + 2)) (g (106 + 3))
    (g (106 + 4)) (g (106 + 5)) (g (106 + 6)) (g (106 + 7))
  unfold int64
  rw [Nat.mod_eq_of_lt hlt,
    Uint64_eq_sum _ _ _ _ _ _ _ _ (g _) (g _) (g _) (g _) (g _) (g _) (g _)]
  norm_num

/-- C5 at a buffer with zero spans, indices `04030201` and `08070605` in hexadecimal,
eight timestamp bytes `ff` (the timestamp -1) and the metadata byte `80`. -/
theorem SnapshotInfoFromBytes_layout_witness :
    ((List.replicate 98 0 ++ [1, 2, 3, 4, 5, 6, 7, 8, 255, 255, 255, 255, 255, 255, 255, 255,
        128]).length = 115 ∧
      IsBytes (List.replicate 98 0 ++ [1, 2, 3, 4, 5, 6, 7, 8, 255, 255, 255, 255, 255, 255,
        255, 255, 128]) ∧
      T5B1.trinary.BytesToTrytes (slice (List.replicate 98 0 ++ [1, 2, 3, 4, 5, 6, 7, 8, 255,
        255, 255, 255, 255, 255, 255, 255, 128]) 0 49) 81
          = .ok (String.mk (List.replicate 81 '9')) ∧
      T5B1.trinary.BytesToTrytes (slice (List.replicate 98 0 ++ [1, 2, 3, 4, 5, 6, 7, 8, 255,
        255, 255, 255, 255, 255, 255, 255, 128]) 49 98) 81
          = .ok (String.mk (List.replicate 81 '9'))) ∧
    SnapshotInfoFromBytes T5B1.trinary (List.replicate 98 0 ++ [1, 2, 3, 4, 5, 6, 7, 8, 255,
        255, 255, 255, 255, 255, 255, 255, 128]) = .ret (some
      { CoordinatorAddress := String.mk (List.replicate 81 '9')
        Hash := String.mk (List.replicate 81 '9')
        SnapshotIndex := 67305985
        PruningIndex := 134678021
        Timestamp := -1
        Metadata := 128 }, none) :=
  ⟨⟨by decide, by decide, by decide, by decide⟩,
    SnapshotInfoFromBytes_layout T5B1.trinary _ _ _ (by decide) (by decide) (by decide)
      (by decide)⟩

/-- C6: re-encode round trip. For every 115-byte input on which `SnapshotInfoFromBytes`
succeeds with a descriptor, if the transform is lossless on the spans 0..49 and 49..98
then `GetBytes` of that descriptor is the input, byte for byte; the metadata of the
descriptor is the byte at 114, all eight bits of it. -/
theorem GetBytes_SnapshotInfoFromBytes (T : Trinary) (b : List Nat) (x : SnapshotInfo)
    (hl : b.length = 115) (hb : IsBytes b)
    (hd : SnapshotInfoFromBytes T b = .ret (some x, none))
    (h1 : T.LosslessOn (slice b 0 49)) (h2 : T.LosslessOn (slice b 49 98)) :
    x.GetBytes T = .ret b ∧ x.Metadata = b.getD 114 0 := by
  obtain ⟨c, cb, hc, hcb, hcl, hct⟩ := (losslessOn_iff T _).1 h1
  obtain ⟨h, hhb, hh, hhb', hhl, hht⟩ := (losslessOn_iff T _).1 h2
  rw [SnapshotInfoFromBytes_eq T b c h hl hc hh] at hd
  have hx : x = _ := (Option.some.inj (congrArg Prod.fst (Go.ret.inj hd))).symm
  subst hx
  refine ⟨?_, rfl⟩
  have g := getD_lt_of_isBytes b hb
  rw [GetBytes_eq T _ cb hhb hcb hcl hhb' hhl]
  simp only []
  rw [hct, hht, uint64_int64 _ (by
      rw [show slice b 106 114 = slice b 106 (106 + 8) from rfl, slice_eq_eight b 106 (by omega)]
      exact Uint64_lt _ _ _ _ _ _ _ _ (g _) (g _) (g _) (g _) (g _) (g _) (g _) (g _))]
  rw [show slice b 98 102 = slice b 98 (98 + 4) from rfl, slice_eq_four b 98 (by omega),
    show slice b 102 106 = slice b 102 (102 + 4) from rfl, slice_eq_four b 102 (by omega),
    show slice b 106 114 = slice b 106 (106 + 8) from rfl, slice_eq_eight b 106 (by omega),
    PutUint32_Uint32 _ _ _ _ (g _) (g _) (g _) (g _),
    PutUint32_Uint32 _ _ _ _ (g _) (g _) (g _) (g _),
    PutUint64_Uint64 _ _ _ _ _ _ _ _ (g _) (g _) (g _) (g _) (g _) (g _) (g _) (g _),
    ← slice_eq_four b 98 (by omega), ← slice_eq_four b 102 (by omega),
    ← slice_eq_eight b 106 (by omega), byte, Nat.mod_eq_of_lt (g 114)]
  exact congrArg Go.ret (slices_recompose b hl)

/-- C6 at the 115 bytes of the documented scenario. -/
theorem GetBytes_SnapshotInfoFromBytes_witness :
    (scenarioBytes.length = 115 ∧ IsBytes scenarioBytes ∧
      SnapshotInfoFromBytes T5B1.trinary scenarioBytes = .ret (some scenario, none) ∧
      T5B1.trinary.LosslessOn (slice scenarioBytes 0 49) ∧
      T5B1.trinary.LosslessOn (slice scenarioBytes 49 98)) ∧
    scenario.GetBytes T5B1.trinary = .ret scenarioBytes ∧
    scenario.Metadata = scenarioBytes.getD 114 0 :=
  ⟨⟨by decide, by decide, by decide, by decide, by decide⟩,
    GetBytes_SnapshotInfoFromBytes T5B1.trinary scenarioBytes scenario (by decide) (by decide)
      (by decide) (by decide) (by decide)⟩

/-! ## Malformed spans and the registry -/

/-- C7 as stated fails: on the 115-byte buffer `malformedBytes` the transform rejects the
span 0..49, and `SnapshotInfoFromBytes` panics instead of returning a nil descriptor with
an error. -/
theorem SnapshotInfoFromBytes_malformed_counterexample :
    malformedBytes.length = 115 ∧ IsBytes malformedBytes ∧
    T5B1.trinary.BytesToTrytes (slice malformedBytes 0 49) 81 = .error (.external 2) ∧
    SnapshotInfoFromBytes T5B1.trinary malformedBytes = .panic (.external 2) ∧
    ¬ ∃ e, SnapshotInfoFromBytes T5B1.trinary malformedBytes = .ret (none, some e) := by
  refine ⟨by decide, by decide, by decide, by decide, ?_⟩
  rintro ⟨e, he⟩
  rw [show SnapshotInfoFromBytes T5B1.trinary malformedBytes = .panic (.external 2)
    from by decide] at he
  cases he

/-- C7, amended: on every 115-byte input in which the transform rejects the span 0..49,
or accepts it and rejects the span 49..98, `SnapshotInfoFromBytes` does not return: it
panics with the error of the transform, that of the first rejected span. -/
theorem SnapshotInfoFromBytes_malformed_panics (T : Trinary) (b : List Nat) (e : GoError)
    (hl : b.length = 115)
    (h : T.BytesToTrytes (slice b 0 49) 81 = .error e ∨
      ∃ c, T.BytesToTrytes (slice b 0 49) 81 = .ok c ∧
        T.BytesToTrytes (slice b 49 98) 81 = .error e) :
    SnapshotInfoFromBytes T b = .panic e := by
  rcases h with h | ⟨c, hc, h⟩
  · simp [SnapshotInfoFromBytes, hl, MustBytesToTrytes, h, Go.bind_panic]
  · simp [SnapshotInfoFromBytes, hl, MustBytesToTrytes, hc, h, Go.bind_ret, Go.bind_panic]

/-- C7, amended, at a buffer whose span 0..49 is accepted and whose span 49..98 holds
the byte 128. -/
theorem SnapshotInfoFromBytes_malformed_panics_witness :
    ((List.replicate 49 0 ++ List.replicate 66 128).length = 115 ∧
      (T5B1.trinary.BytesToTrytes (slice (List.replicate 49 0 ++ List.replicate 66 128) 0 49)
          81 = .error (.external 2) ∨
        ∃ c, T5B1.trinary.BytesToTrytes
            (slice (List.replicate 49 0 ++ List.replicate 66 128) 0 49) 81 = .ok c ∧
          T5B1.trinary.BytesToTrytes
            (slice (List.replicate 49 0 ++ List.replicate 66 128) 49 98) 81
              = .error (.external 2))) ∧
    SnapshotInfoFromBytes T5B1.trinary (List.replicate 49 0 ++ List.replicate 66 128)
      = .panic (.external 2) :=
  ⟨⟨by decide, Or.inr ⟨String.mk (List.replicate 81 '9'), by decide, by decide⟩⟩,
    SnapshotInfoFromBytes_malformed_panics T5B1.trinary _ _ (by decide)
      (Or.inr ⟨String.mk (List.replicate 81 '9'), by decide, by decide⟩)⟩

/-- C8: write then read. From every registry state, if the storage helper accepts the
descriptor `d`, `SetSnapshotInfo(d)` returns and `GetSnapshotInfo()` then returns `d`. -/
theorem GetSnapshotInfo_SetSnapshotInfo {D : Type} (S : Storage D) (r : Registry D)
    (d : SnapshotInfo) (db : D)
    (hs : S.storeSnapshotInfoInDatabase (some d) r.db = (db, none)) :
    ∃ r', SetSnapshotInfo S (some d) r = .returned r' () ∧ GetSnapshotInfo r' = some d := by
  refine ⟨{ r with db := db, snapshot := some d }, ?_, rfl⟩
  simp [SetSnapshotInfo, hs]

/-- C8 on a registry that already caches another descriptor. -/
theorem GetSnapshotInfo_SetSnapshotInfo_witness :
    cellStorage.storeSnapshotInfoInDatabase (some scenario)
        (Registry.mk (some { scenario with Metadata := 254 }) 7 none).db
      = (some scenario, none) ∧
    ∃ r', SetSnapshotInfo cellStorage (some scenario)
        (Registry.mk (some { scenario with Metadata := 254 }) 7 none) = .returned r' () ∧
      GetSnapshotInfo r' = some scenario :=
  ⟨rfl, GetSnapshotInfo_SetSnapshotInfo cellStorage _ scenario (some scenario) rfl⟩

/-- C9: no update on a storage failure. From every registry state, if the storage helper
reports an error for the descriptor, `SetSnapshotInfo` panics with that error and the
cached descriptor is the one from before the call; and whenever `SetSnapshotInfo`
returns, the storage helper has reported no error. -/
theorem SetSnapshotInfo_store_error {D : Type} (S : Storage D) (r : Registry D)
    (sn : Option SnapshotInfo) (db : D) (e : GoError)
    (hs : S.storeSnapshotInfoInDatabase sn r.db = (db, some e)) :
    (∃ r', SetSnapshotInfo S sn r = .panicked r' e ∧ GetSnapshotInfo r' = GetSnapshotInfo r) ∧
    ∀ (S' : Storage D) (r1 r2 : Registry D) (sn' : Option SnapshotInfo),
      SetSnapshotInfo S' sn' r1 = .returned r2 () →
        (S'.storeSnapshotInfoInDatabase sn' r1.db).2 = none := by
  refine ⟨⟨{ r with db := db }, by simp [SetSnapshotInfo, hs], rfl⟩, ?_⟩
  intro S' r1 r2 sn' h
  unfold SetSnapshotInfo at h
  split at h
  · cases h
  · rename_i db' heq
    rw [heq]

/-- C9 on a registry that caches the scenario descriptor, with a failing storage. -/
theorem SetSnapshotInfo_store_error_witness :
    brokenStorage.storeSnapshotInfoInDatabase (some { scenario with Metadata := 0 })
        (Registry.mk (some scenario) 0 ()).db = ((), some (.external 4)) ∧
    ∃ r', SetSnapshotInfo brokenStorage (some { scenario with Metadata := 0 })
        (Registry.mk (some scenario) 0 ()) = .panicked r' (.external 4) ∧
      GetSnapshotInfo r' = some scenario :=
  ⟨rfl, (SetSnapshotInfo_store_error brokenStorage (Registry.mk (some scenario) 0 ())
    (some { scenario with Metadata := 0 }) () (.external 4) rfl).1⟩

theorem GetLatest_SetLatest {D : Type} (r : Registry D) (i : Nat) :
    GetLatestSeenMilestoneIndexFromSnapshot (SetLatestSeenMilestoneIndexFromSnapshot i r)
      = max (GetLatestSeenMilestoneIndexFromSnapshot r) i := by
  unfold SetLatestSeenMilestoneIndexFromSnapshot GetLatestSeenMilestoneIndexFromSnapshot
  split
  · simp only []; omega
  · omega

theorem GetLatest_foldl {D : Type} (is : List Nat) (r : Registry D) :
    GetLatestSeenMilestoneIndexFromSnapshot
        (is.foldl (fun s i => SetLatestSeenMilestoneIndexFromSnapshot i s) r)
      = is.foldl max (GetLatestSeenMilestoneIndexFromSnapshot r) := by
  induction is generalizing r with
  | nil => rfl
  | cons i is ih => rw [List.foldl_cons, List.foldl_cons, ih, GetLatest_SetLatest]

/-- C10: monotonic watermark. One call of `SetLatestSeenMilestoneIndexFromSnapshot`
sets the counter to the maximum of its value and the index, and changes nothing when
the index is not greater; from the initial counter 0, after the calls for `i1..in` in
order the counter is `max(0, i1, ..., in)`. -/
theorem latestSeenMilestoneIndex_watermark {D : Type} (r : Registry D) (i : Nat) (db : D)
    (is : List Nat) :
    GetLatestSeenMilestoneIndexFromSnapshot (SetLatestSeenMilestoneIndexFromSnapshot i r)
      = max (GetLatestSeenMilestoneIndexFromSnapshot r) i ∧
    (i ≤ GetLatestSeenMilestoneIndexFromSnapshot r →
      SetLatestSeenMilestoneIndexFromSnapshot i r = r) ∧
    GetLatestSeenMilestoneIndexFromSnapshot
        (is.foldl (fun s k => SetLatestSeenMilestoneIndexFromSnapshot k s) (Registry.initial db))
      = is.foldl max 0 := by
  refine ⟨GetLatest_SetLatest r i, ?_, GetLatest_foldl is (Registry.initial db)⟩
  intro h
  unfold SetLatestSeenMilestoneIndexFromSnapshot
  unfold GetLatestSeenMilestoneIndexFromSnapshot at h
  rw [if_neg (by omega)]

/-- C10 on the calls 5, 3, 9, 9, 2 from the initial registry, and one call with index 4
on a counter at 7. -/
theorem latestSeenMilestoneIndex_watermark_witness :
    GetLatestSeenMilestoneIndexFromSnapshot
        (SetLatestSeenMilestoneIndexFromSnapshot 4 (Registry.mk none 7 ())) = 7 ∧
    SetLatestSeenMilestoneIndexFromSnapshot 4 (Registry.mk none 7 ()) = Registry.mk none 7 () ∧
    GetLatestSeenMilestoneIndexFromSnapshot
        ([5, 3, 9, 9, 2].foldl (fun s k => SetLatestSeenMilestoneIndexFromSnapshot k s)
          (Registry.initial ())) = 9 :=
  ⟨(latestSeenMilestoneIndex_watermark (Registry.mk none 7 ()) 4 () [5, 3, 9, 9, 2]).1,
    (latestSeenMilestoneIndex_watermark (Registry.mk none 7 ()) 4 () [5, 3, 9, 9, 2]).2.1
      (by decide),
    (latestSeenMilestoneIndex_watermark (Registry.mk none 7 ()) 4 () [5, 3, 9, 9, 2]).2.2⟩

/-! ## The spent-addresses flag -/

theorem or_one_eq (m : Nat) : m ||| 1 = 2 * (m / 2) + 1 := by
  have d : (m ||| 1) / 2 = m / 2 := by
    rw [Nat.or_div_two, show (1 : Nat) / 2 = 0 from rfl, Nat.or_zero]
  have r : (m ||| 1) % 2 = 1 := Nat.or_mod_two_eq_one.2 (Or.inr rfl)
  have := Nat.div_add_mod (m ||| 1) 2
  omega

theorem and_254_eq (m : Nat) : m &&& 254 = 2 * (m / 2 % 128) := by
  have d : (m &&& 254) / 2 = m / 2 % 128 := by
    rw [Nat.and_div_two, show (254 : Nat) / 2 = 2 ^ 7 - 1 from rfl,
      Nat.and_pow_two_sub_one_eq_mod]
  have r : (m &&& 254) % 2 ≠ 1 := by
    intro h
    have := (Nat.and_mod_two_eq_one.1 h).2
    omega
  have := Nat.div_add_mod (m &&& 254) 2
  omega

theorem xor_one_eq (m : Nat) : m ^^^ 1 = 2 * (m / 2) + (1 - m % 2) := by
  have d : (m ^^^ 1) / 2 = m / 2 := by
    rw [Nat.xor_div_two, show (1 : Nat) / 2 = 0 from rfl, Nat.xor_zero]
  have r : (m ^^^ 1) % 2 = (m + 1) % 2 := Nat.xor_mod_two_eq
  have := Nat.div_add_mod (m ^^^ 1) 2
  omega

theorem HasFlag_zero (m : Nat) : BitMask.HasFlag m 0 = decide (m % 2 = 1) := by
  unfold BitMask.HasFlag
  rw [show byte (1 <<< 0) = 1 from rfl, Nat.and_one_is_mod]
  have : (0 < m % 2) ↔ m % 2 = 1 := by omega
  simp only [this]

theorem SetFlag_zero (m : Nat) : BitMask.SetFlag m 0 = 2 * (m / 2) + 1 := by
  unfold BitMask.SetFlag
  rw [show byte (1 <<< 0) = 1 from rfl, or_one_eq]

theorem ClearFlag_zero (m : Nat) : BitMask.ClearFlag m 0 = 2 * (m / 2 % 128) := by
  unfold BitMask.ClearFlag
  rw [show 255 ^^^ byte (1 <<< 0) = 254 from rfl, and_254_eq]

/-- The metadata after `SetSpentAddressesEnabled`, in arithmetic: the guard compares the
wanted value with bit 0. -/
theorem SetSpentAddressesEnabled_Metadata (x : SnapshotInfo) (v : Bool) :
    (x.SetSpentAddressesEnabled v).Metadata =
      if v = decide (x.Metadata % 2 = 1) then x.Metadata
      else if v then 2 * (x.Metadata / 2) + 1 else 2 * (x.Metadata / 2 % 128) := by
  unfold SnapshotInfo.SetSpentAddressesEnabled SnapshotMetadataSpentAddressesEnabled
  rw [HasFlag_zero]
  by_cases h : v = decide (x.Metadata % 2 = 1)
  · rw [if_neg (by simpa using h), if_pos h]
  · rw [if_pos h, if_neg h]
    simp only [BitMask.ModifyFlag, SetFlag_zero, ClearFlag_zero]


theorem SetSpentAddressesEnabled_of_eq (y : SnapshotInfo) (v : Bool)
    (h : v = BitMask.HasFlag y.Metadata SnapshotMetadataSpentAddressesEnabled) :
    y.SetSpentAddressesEnabled v = y := by
  unfold SnapshotInfo.SetSpentAddressesEnabled
  rw [if_neg (by simpa using h)]

/-- C11: the flag write touches only bit 0. After `SetSpentAddressesEnabled(v)` on a
descriptor with a byte of metadata, the metadata bits 1..7 are as before (the metadata
AND `0xFE` is unchanged) and the five other fields are unchanged; a call with the
opposite of the current flag value flips bit 0 and nothing else. -/
theorem SetSpentAddressesEnabled_frame (x : SnapshotInfo) (v : Bool)
    (hm : x.Metadata < 256) :
    (x.SetSpentAddressesEnabled v).Metadata &&& 254 = x.Metadata &&& 254 ∧
    (x.SetSpentAddressesEnabled v).CoordinatorAddress = x.CoordinatorAddress ∧
    (x.SetSpentAddressesEnabled v).Hash = x.Hash ∧
    (x.SetSpentAddressesEnabled v).SnapshotIndex = x.SnapshotIndex ∧
    (x.SetSpentAddressesEnabled v).PruningIndex = x.PruningIndex ∧
    (x.SetSpentAddressesEnabled v).Timestamp = x.Timestamp ∧
    (x.SetSpentAddressesEnabled (!x.IsSpentAddressesEnabled)).Metadata
      = x.Metadata ^^^ 1 := by
  refine ⟨?_, ?_, ?_, ?_, ?_, ?_, ?_⟩
  · rw [and_254_eq, and_254_eq, SetSpentAddressesEnabled_Metadata]
    split
    · rfl
    · split <;> omega
  all_goals try (unfold SnapshotInfo.SetSpentAddressesEnabled; split <;> rfl)
  rw [SetSpentAddressesEnabled_Metadata, xor_one_eq, SnapshotInfo.IsSpentAddressesEnabled,
    SnapshotMetadataSpentAddressesEnabled, HasFlag_zero]
  by_cases h : x.Metadata % 2 = 1
  · simp [h]; omega
  · simp [h]; omega

/-- C11 at the metadata `0xAB` (bit 0 set) with the value false, and at `0xAA` with the
opposite of its flag. -/
theorem SetSpentAddressesEnabled_frame_witness :
    ({ scenario with Metadata := 171 } : SnapshotInfo).Metadata < 256 ∧
    (({ scenario with Metadata := 171 } : SnapshotInfo).SetSpentAddressesEnabled false).Metadata
      = 170 ∧
    (({ scenario with Metadata := 171 } : SnapshotInfo).SetSpentAddressesEnabled false).Metadata
      &&& 254 = 171 &&& 254 ∧
    (({ scenario with Metadata := 171 } : SnapshotInfo).SetSpentAddressesEnabled
      (!({ scenario with Metadata := 171 } : SnapshotInfo).IsSpentAddressesEnabled)).Metadata
      = 171 ^^^ 1 :=
  ⟨by decide, by decide,
    (SetSpentAddressesEnabled_frame { scenario with Metadata := 171 } false (by decide)).1,
    (SetSpentAddressesEnabled_frame { scenario with Metadata := 171 } false
      (by decide)).2.2.2.2.2.2⟩

/-- C12: the flag write is idempotent. Two calls of `SetSpentAddressesEnabled(v)` in a row
leave the descriptor as one call does, and a call with the current value of the flag
leaves the descriptor unchanged. -/
theorem SetSpentAddressesEnabled_idempotent (x : SnapshotInfo) (v : Bool) :
    (x.SetSpentAddressesEnabled v).SetSpentAddressesEnabled v = x.SetSpentAddressesEnabled v ∧
    x.SetSpentAddressesEnabled x.IsSpentAddressesEnabled = x := by
  constructor
  · have h := SetSpentAddressesEnabled_Metadata (x.SetSpentAddressesEnabled v) v
    have h0 := SetSpentAddressesEnabled_Metadata x v
    have hg : v = BitMask.HasFlag (x.SetSpentAddressesEnabled v).Metadata
        SnapshotMetadataSpentAddressesEnabled := by
      rw [SnapshotMetadataSpentAddressesEnabled, HasFlag_zero, h0]
      by_cases hv : v = decide (x.Metadata % 2 = 1)
      · rw [if_pos hv]; exact hv
      · rw [if_neg hv]
        cases v
        · simp
        · simp; omega
    exact SetSpentAddressesEnabled_of_eq _ v hg
  · exact SetSpentAddressesEnabled_of_eq x _ rfl

/-- C13: bit 0 is the boolean. After `SetSpentAddressesEnabled(v)` the method
`IsSpentAddressesEnabled` returns `v`; it returns true exactly when bit 0 of the metadata
is set, whatever the bits above it are. -/
theorem IsSpentAddressesEnabled_SetSpentAddressesEnabled (x : SnapshotInfo) (v : Bool)
    (k : Nat) :
    (x.SetSpentAddressesEnabled v).IsSpentAddressesEnabled = v ∧
    (x.IsSpentAddressesEnabled = true ↔ x.Metadata &&& 1 = 1) ∧
    ({ x with Metadata := x.Metadata % 2 + 2 * k } : SnapshotInfo).IsSpentAddressesEnabled
      = x.IsSpentAddressesEnabled := by
  refine ⟨?_, ?_, ?_⟩
  · rw [SnapshotInfo.IsSpentAddressesEnabled, SnapshotMetadataSpentAddressesEnabled,
      HasFlag_zero, SetSpentAddressesEnabled_Metadata]
    by_cases hv : v = decide (x.Metadata % 2 = 1)
    · rw [if_pos hv]; exact hv.symm
    · rw [if_neg hv]
      cases v
      · simp
      · simp; omega
  · rw [SnapshotInfo.IsSpentAddressesEnabled, SnapshotMetadataSpentAddressesEnabled,
      HasFlag_zero, Nat.and_one_is_mod]
    simp
  · simp only [SnapshotInfo.IsSpentAddressesEnabled, SnapshotMetadataSpentAddressesEnabled,
      HasFlag_zero]
    have : (x.Metadata % 2 + 2 * k) % 2 = x.Metadata % 2 := by omega
    rw [this]

/-! ## `SetSnapshotMilestone` -/

theorem SetSpentAddressesEnabled_fresh (c h : Trytes) (si pi : Nat) (t : Int) (e : Bool) :
    SnapshotInfo.SetSpentAddressesEnabled
        { CoordinatorAddress := c, Hash := h, SnapshotIndex := si, PruningIndex := pi,
          Timestamp := t, Metadata := 0 } e
      = { CoordinatorAddress := c, Hash := h, SnapshotIndex := si, PruningIndex := pi,
          Timestamp := t, Metadata := if e then 1 else 0 } := by
  unfold SnapshotInfo.SetSpentAddressesEnabled SnapshotMetadataSpentAddressesEnabled
  rw [HasFlag_zero]
  cases e
  · simp
  · simp [BitMask.ModifyFlag, SetFlag_zero]

/-- C14: `SetSnapshotMilestone` builds a fresh descriptor. From every registry state and
for all arguments, if the storage helper accepts the descriptor, the call returns and
`GetSnapshotInfo()` then returns the descriptor whose five non-flag fields are the
arguments and whose metadata is exactly 1 when `spentAddressesEnabled` is true and exactly
0 otherwise. -/
theorem GetSnapshotInfo_SetSnapshotMilestone {D : Type} (S : Storage D) (r : Registry D)
    (c h : Trytes) (si pi : Nat) (t : Int) (e : Bool) (db : D)
    (hs : S.storeSnapshotInfoInDatabase (some
      { CoordinatorAddress := c, Hash := h, SnapshotIndex := si, PruningIndex := pi,
        Timestamp := t, Metadata := if e then 1 else 0 }) r.db = (db, none)) :
    ∃ r', SetSnapshotMilestone S c h si pi t e r = .returned r' () ∧
      GetSnapshotInfo r' = some
        { CoordinatorAddress := c, Hash := h, SnapshotIndex := si, PruningIndex := pi,
          Timestamp := t, Metadata := if e then 1 else 0 } := by
  unfold SetSnapshotMilestone
  simp only [SetSpentAddressesEnabled_fresh]
  refine ⟨Registry.mk (some
    { CoordinatorAddress := c, Hash := h, SnapshotIndex := si, PruningIndex := pi,
      Timestamp := t, Metadata := if e then 1 else 0 })
    r.latestSeenMilestoneIndexFromSnapshot db, ?_, rfl⟩
  simp [SetSnapshotInfo, hs]

/-- C14 on a registry that caches a descriptor with all metadata bits set: the published
descriptor has metadata 1 with the flag and 0 without it. -/
theorem GetSnapshotInfo_SetSnapshotMilestone_witness :
    (cellStorage.storeSnapshotInfoInDatabase (some
        { CoordinatorAddress := "A", Hash := "B", SnapshotIndex := 100, PruningIndex := 50,
          Timestamp := 1600000000, Metadata := if true then 1 else 0 })
        (Registry.mk (some { scenario with Metadata := 255 }) 3 none).db
      = (some { CoordinatorAddress := "A", Hash := "B", SnapshotIndex := 100,
                PruningIndex := 50, Timestamp := 1600000000, Metadata := 1 }, none)) ∧
    ∃ r', SetSnapshotMilestone cellStorage "A" "B" 100 50 1600000000 true
        (Registry.mk (some { scenario with Metadata := 255 }) 3 none) = .returned r' () ∧
      GetSnapshotInfo r' = some
        { CoordinatorAddress := "A", Hash := "B", SnapshotIndex := 100, PruningIndex := 50,
          Timestamp := 1600000000, Metadata := 1 } :=
  ⟨rfl, GetSnapshotInfo_SetSnapshotMilestone cellStorage _ "A" "B" 100 50 1600000000 true _
    rfl⟩

/-! ## The registry as a state machine -/

/-- C15 as stated fails: with a storage that accepts every store and finds no record on a
read, `SetSnapshotInfo` from the initial registry caches the scenario descriptor, and a
following `loadSnapshotInfo`, or a following `SetSnapshotInfo(nil)`, leaves the cache
nil. -/
theorem present_to_absent_counterexample :
    GetSnapshotInfo (runOps forgetfulStorage [.setInfo (some scenario)] (Registry.initial ()))
      = some scenario ∧
    GetSnapshotInfo (Op.run forgetfulStorage .load
      (runOps forgetfulStorage [.setInfo (some scenario)] (Registry.initial ()))) = none ∧
    GetSnapshotInfo (Op.run forgetfulStorage (.setInfo none)
      (runOps forgetfulStorage [.setInfo (some scenario)] (Registry.initial ()))) = none :=
  ⟨rfl, rfl, rfl⟩

/-- C15, amended: from every registry state that caches a descriptor, the cache still
holds a descriptor after any one call of the registry, returning or panicking, except a
`loadSnapshotInfo` whose storage read finds no record and reports no error and a
`SetSnapshotInfo(nil)` whose store reports no error. -/
theorem present_stays_present {D : Type} (S : Storage D) (r : Registry D) (op : Op)
    (hp : (GetSnapshotInfo r).isSome = true)
    (hload : op = .load → S.readSnapshotInfoFromDatabase r.db ≠ (none, none))
    (hset : op = .setInfo none → (S.storeSnapshotInfoInDatabase none r.db).2 ≠ none) :
    (GetSnapshotInfo (op.run S r)).isSome = true := by
  unfold GetSnapshotInfo at hp ⊢
  cases op with
  | load =>
    have hl := hload rfl
    simp only [Op.run, loadSnapshotInfo]
    rcases hr : S.readSnapshotInfoFromDatabase r.db with ⟨info, err⟩
    rw [hr] at hl
    cases err with
    | some e => exact hp
    | none =>
      cases info with
      | none => exact absurd rfl hl
      | some i => rfl
  | setInfo sn =>
    simp only [Op.run, SetSnapshotInfo]
    rcases hr : S.storeSnapshotInfoInDatabase sn r.db with ⟨db, err⟩
    cases err with
    | some e => exact hp
    | none =>
      cases sn with
      | none =>
        have := hset rfl
        rw [hr] at this
        exact absurd rfl this
      | some d => rfl
  | setMilestone c h si pi t e =>
    simp only [Op.run, SetSnapshotMilestone, SetSnapshotInfo]
    split
    · exact hp
    · rfl
  | get => exact hp
  | setLatestSeen i =>
    simp only [Op.run, SetLatestSeenMilestoneIndexFromSnapshot]
    split
    · exact hp
    · exact hp
  | getLatestSeen => exact hp

/-- C15, amended, at a `loadSnapshotInfo` on the one-cell storage that holds a record. -/
theorem present_stays_present_witness :
    ((GetSnapshotInfo (Registry.mk (some scenario) 0 (some { scenario with Metadata := 0 }))
        ).isSome = true ∧
      cellStorage.readSnapshotInfoFromDatabase
        (Registry.mk (some scenario) 0 (some { scenario with Metadata := 0 })).db
          ≠ (none, none)) ∧
    (GetSnapshotInfo (Op.run cellStorage .load
      (Registry.mk (some scenario) 0 (some { scenario with Metadata := 0 })))).isSome = true :=
  ⟨⟨rfl, by decide⟩,
    present_stays_present cellStorage _ .load rfl (fun _ => by decide)
      (fun h => by cases h)⟩

/-- C16 as stated fails: a 115-byte buffer with the value 0 at 98..102 and the value 1 at
102..106 decodes without error to a descriptor with pruning index 1 above snapshot index
0, and `SetSnapshotMilestone` with snapshot index 0 and pruning index 1 publishes such a
descriptor. -/
theorem pruningIndex_le_counterexample :
    (∃ x, SnapshotInfoFromBytes T5B1.trinary
        (List.replicate 98 0 ++ [0, 0, 0, 0, 1, 0, 0, 0] ++ List.replicate 9 0)
          = .ret (some x, none) ∧ ¬ x.PruningIndex ≤ x.SnapshotIndex) ∧
    ∃ r' x, SetSnapshotMilestone cellStorage "A" "B" 0 1 0 false (Registry.initial none)
        = .returned r' () ∧
      GetSnapshotInfo r' = some x ∧ ¬ x.PruningIndex ≤ x.SnapshotIndex :=
  ⟨⟨{ CoordinatorAddress := String.mk (List.replicate 81 '9')
      Hash := String.mk (List.replicate 81 '9')
      SnapshotIndex := 0, PruningIndex := 1, Timestamp := 0, Metadata := 0 },
      by decide, by decide⟩,
    ⟨Registry.mk
        (some
          { CoordinatorAddress := "A", Hash := "B", SnapshotIndex := 0, PruningIndex := 1,
            Timestamp := 0, Metadata := 0 }) 0
        (some
          { CoordinatorAddress := "A", Hash := "B", SnapshotIndex := 0, PruningIndex := 1,
            Timestamp := 0, Metadata := 0 }),
      { CoordinatorAddress := "A", Hash := "B", SnapshotIndex := 0, PruningIndex := 1,
        Timestamp := 0, Metadata := 0 }, rfl, rfl, by decide⟩⟩

theorem SnapshotInfoFromBytes_ret_some (T : Trinary) (b : List Nat) (x : SnapshotInfo)
    (hd : SnapshotInfoFromBytes T b = .ret (some x, none)) :
    b.length = 115 ∧
    x.SnapshotIndex = LittleEndian.Uint32 (slice b 98 102) ∧
    x.PruningIndex = LittleEndian.Uint32 (slice b 102 106) := by
  by_cases hl : b.length = 115
  · refine ⟨hl, ?_⟩
    unfold SnapshotInfoFromBytes MustBytesToTrytes at hd
    rw [if_neg (by simpa using hl)] at hd
    cases hc : T.BytesToTrytes (slice b 0 49) 81 with
    | error e => rw [hc] at hd; cases hd
    | ok c =>
      cases hh : T.BytesToTrytes (slice b 49 98) 81 with
      | error e => rw [hc, hh] at hd; cases hd
      | ok h =>
        rw [hc, hh] at hd
        have hx := (Option.some.inj (congrArg Prod.fst (Go.ret.inj hd))).symm
        subst hx
        exact ⟨rfl, rfl⟩
  · unfold SnapshotInfoFromBytes at hd
    rw [if_pos hl] at hd
    cases hd

/-- C16, amended: the component keeps the order of the two indices and does not impose
it. A descriptor that `SnapshotInfoFromBytes` returns has `PruningIndex <= SnapshotIndex`
exactly when the little-endian value at 102..106 is at most the one at 98..102, and the
descriptor that a returning `SetSnapshotMilestone` publishes carries its arguments, so it
has `PruningIndex <= SnapshotIndex` exactly when `pruningIndex <= snapshotIndex`. -/
theorem pruningIndex_le_iff {D : Type} (T : Trinary) (b : List Nat) (x : SnapshotInfo)
    (S : Storage D) (r r' : Registry D) (c h : Trytes) (si pi : Nat) (t : Int) (e : Bool)
    (hb : IsBytes b) (hd : SnapshotInfoFromBytes T b = .ret (some x, none))
    (hm : SetSnapshotMilestone S c h si pi t e r = .returned r' ()) :
    (x.PruningIndex ≤ x.SnapshotIndex ↔
      b.getD 102 0 + 256 * b.getD 103 0 + 256 ^ 2 * b.getD 104 0 + 256 ^ 3 * b.getD 105 0
        ≤ b.getD 98 0 + 256 * b.getD 99 0 + 256 ^ 2 * b.getD 100 0
          + 256 ^ 3 * b.getD 101 0) ∧
    ∃ y, GetSnapshotInfo r' = some y ∧ y.SnapshotIndex = si ∧ y.PruningIndex = pi ∧
      (y.PruningIndex ≤ y.SnapshotIndex ↔ pi ≤ si) := by
  constructor
  · obtain ⟨hl, h1, h2⟩ := SnapshotInfoFromBytes_ret_some T b x hd
    have g := getD_lt_of_isBytes b hb
    rw [h1, h2, show slice b 98 102 = slice b 98 (98 + 4) from rfl, slice_eq_four b 98 (by omega),
      show slice b 102 106 = slice b 102 (102 + 4) from rfl, slice_eq_four b 102 (by omega),
      Uint32_eq_sum _ _ _ _ (g _) (g _) (g _), Uint32_eq_sum _ _ _ _ (g _) (g _) (g _)]
    norm_num
  · unfold SetSnapshotMilestone at hm
    simp only [SetSpentAddressesEnabled_fresh, SetSnapshotInfo] at hm
    split at hm
    · cases hm
    · have hr := (Run.returned.inj hm).1
      subst hr
      exact ⟨_, rfl, rfl, rfl, Iff.rfl⟩

/-- C16, amended, at the scenario bytes and at a `SetSnapshotMilestone` with the fields
of the scenario, indices 100 and 50. -/
theorem pruningIndex_le_iff_witness :
    (IsBytes scenarioBytes ∧
      SnapshotInfoFromBytes T5B1.trinary scenarioBytes = .ret (some scenario, none) ∧
      SetSnapshotMilestone cellStorage scenario.CoordinatorAddress scenario.Hash 100 50
        1600000000 true (Registry.initial none)
          = .returned (Registry.mk (some scenario) 0 (some scenario)) ()) ∧
    (scenario.PruningIndex ≤ scenario.SnapshotIndex ↔ 50 ≤ 100) ∧
    ∃ y, GetSnapshotInfo (Registry.mk (some scenario) 0 (some scenario)) = some y ∧
      y.SnapshotIndex = 100 ∧ y.PruningIndex = 50 ∧
      (y.PruningIndex ≤ y.SnapshotIndex ↔ 50 ≤ 100) :=
  ⟨⟨by decide, by decide, by
      simp [SetSnapshotMilestone, SetSpentAddressesEnabled_fresh, SetSnapshotInfo,
        cellStorage, Registry.initial, scenario]⟩,
    pruningIndex_le_iff T5B1.trinary scenarioBytes scenario cellStorage (Registry.initial none)
      (Registry.mk (some scenario) 0 (some scenario)) scenario.CoordinatorAddress
      scenario.Hash 100 50 1600000000 true (by decide) (by decide) (by
        simp [SetSnapshotMilestone, SetSpentAddressesEnabled_fresh, SetSnapshotInfo,
          cellStorage, Registry.initial, scenario])⟩

theorem latestSeen_le_run {D : Type} (S : Storage D) (op : Op) (r : Registry D) :
    r.latestSeenMilestoneIndexFromSnapshot
      ≤ (op.run S r).latestSeenMilestoneIndexFromSnapshot := by
  cases op with
  | load =>
    simp only [Op.run, loadSnapshotInfo]
    split <;> exact Nat.le_refl _
  | setInfo sn =>
    simp only [Op.run, SetSnapshotInfo]
    split <;> exact Nat.le_refl _
  | setMilestone c h si pi t e =>
    simp only [Op.run, SetSnapshotMilestone, SetSnapshotInfo]
    split <;> exact Nat.le_refl _
  | get => exact Nat.le_refl _
  | setLatestSeen i =>
    simp only [Op.run, SetLatestSeenMilestoneIndexFromSnapshot]
    split
    · exact Nat.le_of_lt (by assumption)
    · exact Nat.le_refl _
  | getLatestSeen => exact Nat.le_refl _

theorem latestSeen_le_runOps {D : Type} (S : Storage D) (ops : List Op) (r : Registry D) :
    r.latestSeenMilestoneIndexFromSnapshot
      ≤ (runOps S ops r).latestSeenMilestoneIndexFromSnapshot := by
  induction ops generalizing r with
  | nil => exact Nat.le_refl _
  | cons op ops ih =>
    exact Nat.le_trans (latestSeen_le_run S op r) (ih (op.run S r))

/-- C17: watermark independence. `loadSnapshotInfo`, `SetSnapshotInfo`,
`SetSnapshotMilestone` and `GetSnapshotInfo` leave the counter as it is, returning or
panicking; over any sequence of registry calls the counter does not decrease; and
`SetLatestSeenMilestoneIndexFromSnapshot` leaves the cached descriptor and the database
as they are. -/
theorem watermark_independent {D : Type} (S : Storage D) (r : Registry D)
    (sn : Option SnapshotInfo) (c h : Trytes) (si pi : Nat) (t : Int) (e : Bool)
    (ops : List Op) (i : Nat) :
    (Op.run S .load r).latestSeenMilestoneIndexFromSnapshot
      = r.latestSeenMilestoneIndexFromSnapshot ∧
    (Op.run S (.setInfo sn) r).latestSeenMilestoneIndexFromSnapshot
      = r.latestSeenMilestoneIndexFromSnapshot ∧
    (Op.run S (.setMilestone c h si pi t e) r).latestSeenMilestoneIndexFromSnapshot
      = r.latestSeenMilestoneIndexFromSnapshot ∧
    (Op.run S .get r).latestSeenMilestoneIndexFromSnapshot
      = r.latestSeenMilestoneIndexFromSnapshot ∧
    GetLatestSeenMilestoneIndexFromSnapshot r
      ≤ GetLatestSeenMilestoneIndexFromSnapshot (runOps S ops r) ∧
    (SetLatestSeenMilestoneIndexFromSnapshot i r).snapshot = r.snapshot ∧
    (SetLatestSeenMilestoneIndexFromSnapshot i r).db = r.db := by
  refine ⟨?_, ?_, ?_, rfl, latestSeen_le_runOps S ops r, ?_, ?_⟩
  · simp only [Op.run, loadSnapshotInfo]
    split <;> rfl
  · simp only [Op.run, SetSnapshotInfo]
    split <;> rfl
  · simp only [Op.run, SetSnapshotMilestone, SetSnapshotInfo]
    split <;> rfl
  · unfold SetLatestSeenMilestoneIndexFromSnapshot
    split <;> rfl
  · unfold SetLatestSeenMilestoneIndexFromSnapshot
    split <;> rfl

/-! ## The guard of the flag write -/

/-- C19: the guard of `SetSpentAddressesEnabled` is redundant. On every descriptor with a
byte of metadata the guarded update gives the same descriptor as the unconditional
`ModifyFlag` of bit 0, whose metadata is the old one OR 1 when the value is true and the
old one AND `0xFE` when it is false. -/
theorem SetSpentAddressesEnabled_eq_unguarded (x : SnapshotInfo) (v : Bool)
    (hm : x.Metadata < 256) :
    x.SetSpentAddressesEnabled v = x.SetSpentAddressesEnabledUnguarded v ∧
    (x.SetSpentAddressesEnabledUnguarded v).Metadata
      = if v then x.Metadata ||| 1 else x.Metadata &&& 254 := by
  have hu : (x.SetSpentAddressesEnabledUnguarded v).Metadata
      = if v then x.Metadata ||| 1 else x.Metadata &&& 254 := by
    cases v <;> rfl
  refine ⟨?_, hu⟩
  have hg := SetSpentAddressesEnabled_Metadata x v
  have e : (x.SetSpentAddressesEnabled v).Metadata
      = (x.SetSpentAddressesEnabledUnguarded v).Metadata := by
    rw [hg, hu, or_one_eq, and_254_eq]
    by_cases hb : x.Metadata % 2 = 1
    · cases v
      · simp [hb]
      · simp [hb]; omega
    · cases v
      · simp [hb]; omega
      · simp [hb]
  unfold SnapshotInfo.SetSpentAddressesEnabled at e ⊢
  unfold SnapshotInfo.SetSpentAddressesEnabledUnguarded at e ⊢
  split
  · rfl
  · rename_i hn
    rw [if_neg hn] at e
    cases x
    simp only [SnapshotInfo.mk.injEq, true_and] at e ⊢
    exact e

/-- C19 at the metadata `0xAA` with the value false, where the guard skips the update. -/
theorem SetSpentAddressesEnabled_eq_unguarded_witness :
    ({ scenario with Metadata := 170 } : SnapshotInfo).Metadata < 256 ∧
    ({ scenario with Metadata := 170 } : SnapshotInfo).SetSpentAddressesEnabled false
      = ({ scenario with Metadata := 170 } : SnapshotInfo).SetSpentAddressesEnabledUnguarded
          false ∧
    (({ scenario with Metadata := 170 } : SnapshotInfo).SetSpentAddressesEnabledUnguarded
      false).Metadata = 170 :=
  ⟨by decide,
    (SetSpentAddressesEnabled_eq_unguarded { scenario with Metadata := 170 } false
      (by decide)).1,
    (SetSpentAddressesEnabled_eq_unguarded { scenario with Metadata := 170 } false
      (by decide)).2⟩

/-! ## Integer fields without the transform -/

theorem slice_slice (b : List Nat) (lo hi i j : Nat) (h : lo + j ≤ hi) :
    slice (slice b lo hi) i j = slice b (lo + i) (lo + j) := by
  unfold slice
  rw [List.drop_take, List.take_take, List.drop_drop]
  congr 1
  omega

theorem GetBytes_ret_inv (T : Trinary) (x : SnapshotInfo) (b : List Nat)
    (h : x.GetBytes T = .ret b) :
    ∃ cb hb, T.TrytesToBytes x.CoordinatorAddress = .ok cb ∧ 49 ≤ cb.length ∧
      T.TrytesToBytes x.Hash = .ok hb ∧ 49 ≤ hb.length := by
  unfold SnapshotInfo.GetBytes MustTrytesToBytes sliceTo at h
  cases hc : T.TrytesToBytes x.CoordinatorAddress with
  | error e => rw [hc] at h; cases h
  | ok cb =>
    rw [hc] at h
    simp only [Go.bind_ret] at h
    by_cases hcl : 49 ≤ cb.length
    · rw [if_pos hcl] at h
      simp only [Go.bind_ret] at h
      cases hh : T.TrytesToBytes x.Hash with
      | error e => rw [hh] at h; cases h
      | ok hb =>
        rw [hh] at h
        simp only [Go.bind_ret] at h
        by_cases hhl : 49 ≤ hb.length
        · exact ⟨cb, hb, rfl, hcl, rfl, hhl⟩
        · rw [if_neg hhl] at h; cases h
    · rw [if_neg hcl] at h; cases h

theorem GetBytes_tail (T : Trinary) (x : SnapshotInfo) (b : List Nat)
    (h : x.GetBytes T = .ret b) :
    slice (slice b 98 115) 0 4 = LittleEndian.PutUint32 (uint32 x.SnapshotIndex) ∧
    slice (slice b 98 115) 4 8 = LittleEndian.PutUint32 (uint32 x.PruningIndex) ∧
    slice (slice b 98 115) 8 16 = LittleEndian.PutUint64 (uint64 x.Timestamp) ∧
    (slice b 98 115).getD 16 0 = byte x.Metadata := by
  obtain ⟨cb, hb, hc, hcl, hh, hhl⟩ := GetBytes_ret_inv T x b h
  rw [GetBytes_eq T x cb hb hc hcl hh hhl] at h
  have hb' := (Go.ret.inj h).symm
  obtain ⟨_, _, _, sI, sP, sT, sM⟩ := layout_slices (cb.take 49) (hb.take 49)
    (LittleEndian.PutUint32 (uint32 x.SnapshotIndex))
    (LittleEndian.PutUint32 (uint32 x.PruningIndex))
    (LittleEndian.PutUint64 (uint64 x.Timestamp)) (byte x.Metadata)
    (by simp; omega) (by simp; omega) rfl rfl rfl
  rw [← hb'] at sI sP sT sM
  refine ⟨?_, ?_, ?_, ?_⟩
  · rw [slice_slice b 98 115 0 4 (by omega)]; exact sI
  · rw [slice_slice b 98 115 4 8 (by omega)]; exact sP
  · rw [slice_slice b 98 115 8 16 (by omega)]; exact sT
  · rw [getD_slice b 98 115 16 (by omega)]; exact sM

/-- C20: the integer fields survive the codec with no assumption on the tryte transform.
Every `int64` value, the minimum included, comes back from the little-endian 64-bit
encoding of its `uint64` conversion, every `uint32` value comes back from its
little-endian 32-bit encoding, and two descriptors whose `GetBytes` buffers agree on the
bytes 98..114 have the same snapshot index, pruning index, timestamp and metadata. -/
theorem integer_fields_survive (T : Trinary) (t : Int) (n : Nat) (x y : SnapshotInfo)
    (bx bY : List Nat) (ht1 : -(2 ^ 63 : Int) ≤ t) (ht2 : t < 2 ^ 63) (hn : n < 2 ^ 32)
    (hx : x.InRange) (hy : y.InRange) (hbx : x.GetBytes T = .ret bx)
    (hbY : y.GetBytes T = .ret bY) (h : slice bx 98 115 = slice bY 98 115) :
    int64 (LittleEndian.Uint64 (LittleEndian.PutUint64 (uint64 t))) = t ∧
    LittleEndian.Uint32 (LittleEndian.PutUint32 n) = n ∧
    x.SnapshotIndex = y.SnapshotIndex ∧ x.PruningIndex = y.PruningIndex ∧
    x.Timestamp = y.Timestamp ∧ x.Metadata = y.Metadata := by
  obtain ⟨x1, x2, x3, x4, x5⟩ := hx
  obtain ⟨y1, y2, y3, y4, y5⟩ := hy
  obtain ⟨aI, aP, aT, aM⟩ := GetBytes_tail T x bx hbx
  obtain ⟨bI, bP, bT, bM⟩ := GetBytes_tail T y bY hbY
  rw [h] at aI aP aT aM
  refine ⟨?_, Uint32_PutUint32 n hn, ?_, ?_, ?_, ?_⟩
  · rw [Uint64_PutUint64 _ (uint64_lt t), int64_uint64 t ht1 ht2]
  · have e := congrArg LittleEndian.Uint32 (aI.symm.trans bI)
    rwa [uint32_of_lt _ x1, uint32_of_lt _ y1, Uint32_PutUint32 _ x1,
      Uint32_PutUint32 _ y1] at e
  · have e := congrArg LittleEndian.Uint32 (aP.symm.trans bP)
    rwa [uint32_of_lt _ x2, uint32_of_lt _ y2, Uint32_PutUint32 _ x2,
      Uint32_PutUint32 _ y2] at e
  · have e := congrArg (fun l => int64 (LittleEndian.Uint64 l)) (aT.symm.trans bT)
    simp only [] at e
    rwa [Uint64_PutUint64 _ (uint64_lt _), Uint64_PutUint64 _ (uint64_lt _),
      int64_uint64 _ x3 x4, int64_uint64 _ y3 y4] at e
  · have e := aM.symm.trans bM
    unfold byte at e
    rwa [Nat.mod_eq_of_lt x5, Nat.mod_eq_of_lt y5] at e

/-- C20 at the minimum `int64`, the maximum `uint32`, and the scenario descriptor beside
one with other tryte fields. -/
theorem integer_fields_survive_witness :
    ((-(2 ^ 63 : Int) ≤ -9223372036854775808 ∧ (-9223372036854775808 : Int) < 2 ^ 63 ∧
        (4294967295 : Nat) < 2 ^ 32) ∧
      scenario.InRange ∧
      ({ scenario with CoordinatorAddress := String.mk (List.replicate 81 'M')
                       Hash := String.mk (List.replicate 81 '9') } : SnapshotInfo).InRange ∧
      scenario.GetBytes T5B1.trinary = .ret scenarioBytes ∧
      SnapshotInfo.GetBytes T5B1.trinary
        { scenario with CoordinatorAddress := String.mk (List.replicate 81 'M')
                        Hash := String.mk (List.replicate 81 '9') }
          = .ret (List.replicate 48 121 ++ [13] ++ List.replicate 49 0
              ++ scenarioBytes.drop 98) ∧
      slice scenarioBytes 98 115 = slice (List.replicate 48 121 ++ [13] ++ List.replicate 49 0
              ++ scenarioBytes.drop 98) 98 115) ∧
    int64 (LittleEndian.Uint64 (LittleEndian.PutUint64 (uint64 (-9223372036854775808))))
      = -9223372036854775808 ∧
    LittleEndian.Uint32 (LittleEndian.PutUint32 4294967295) = 4294967295 :=
  ⟨⟨⟨by decide, by decide, by decide⟩, by decide, by decide, by decide, by decide, by decide⟩,
    (integer_fields_survive T5B1.trinary (-9223372036854775808) 4294967295 scenario
      { scenario with CoordinatorAddress := String.mk (List.replicate 81 'M')
                      Hash := String.mk (List.replicate 81 '9') }
      scenarioBytes
      (List.replicate 48 121 ++ [13] ++ List.replicate 49 0 ++ scenarioBytes.drop 98)
      (by decide) (by decide) (by decide) (by decide) (by decide) (by decide) (by decide)
      (by decide)).1,
    (integer_fields_survive T5B1.trinary (-9223372036854775808) 4294967295 scenario
      { scenario with CoordinatorAddress := String.mk (List.replicate 81 'M')
                      Hash := String.mk (List.replicate 81 '9') }
      scenarioBytes
      (List.replicate 48 121 ++ [13] ++ List.replicate 49 0 ++ scenarioBytes.drop 98)
      (by decide) (by decide) (by decide) (by decide) (by decide) (by decide) (by decide)
      (by decide)).2.1⟩

end Hornet
